import Mathlib

/-!
# Readiness / blocking core of the pipeline engine

Shallow embedding of `be/src/pipeline/pipeline_x/dependency.h` and of the
`ResultSinkDependency` class of `be/src/pipeline/exec/result_sink_operator.h`.

Objects live in a `Heap`; a C++ pointer is the index of the object in the heap
(`Option Nat`, `none` being `nullptr`).  A call that does not return normally
(null dereference, failed `DCHECK`, unbounded recursion) yields a `Fault`.
-/

namespace doris.pipeline

/-- Ways in which a call ends without returning. -/
inductive Fault
  /-- Member access through a null (or dangling) pointer. -/
  | null_dereference
  /-- A `DCHECK` whose condition is false. -/
  | dcheck_failed
  /-- The recursion budget of the model is exhausted: the C++ recursion does not end. -/
  | out_of_fuel
  /-- The call `std::vector::operator[]` with an index outside the vector. -/
  | index_out_of_range
  deriving DecidableEq, Repr

/-- Result of a call: a fault or the value returned. -/
inductive Outcome (α : Type)
  | fault (f : Fault)
  | ok (value : α)
  deriving DecidableEq, Repr

/-- Source: `static constexpr auto SLOW_DEPENDENCY_THRESHOLD = 60 * 1000L * 1000L * 1000L;` -/
def SLOW_DEPENDENCY_THRESHOLD : Nat := 60 * 1000 * 1000 * 1000

/-- Source: `static constexpr auto TIME_UNIT_DEPENDENCY_LOG = 30 * 1000L * 1000L * 1000L;` -/
def TIME_UNIT_DEPENDENCY_LOG : Nat := 30 * 1000 * 1000 * 1000

/-- Source: `struct BasicSharedState { Dependency* source_dep; Dependency* sink_dep; }`. -/
structure BasicSharedState where
  source_dep : Option Nat
  sink_dep : Option Nat
  deriving DecidableEq, Repr

/-- The dynamic type of a `Dependency` object (the classes of the two headers), with the
data members the subclass adds. -/
inductive DependencyKind
  /-- Source: `class Dependency` itself. -/
  | Dependency
  /-- Source: `struct FakeDependency final : public Dependency`. -/
  | FakeDependency
  /-- Source: `class RuntimeFilterDependency final : public Dependency`, with
  `std::atomic_int _filters` and `std::shared_ptr<std::atomic_bool> _blocked_by_rf`
  (`none` is the null pointer, `some b` a flag holding `b`). -/
  | RuntimeFilterDependency (_filters : Int) (_blocked_by_rf : Option Bool)
  /-- Source: `class AndDependency final : public Dependency`. -/
  | AndDependency
  /-- Source: `class AsyncWriterDependency final : public Dependency`. -/
  | AsyncWriterDependency
  /-- Source: `class ResultSinkDependency final : public Dependency`. -/
  | ResultSinkDependency
  deriving DecidableEq, Repr

/-- The data members of `class Dependency` (the stop watch `_watcher` and the mutex
`_task_lock` carry no sequential state and are left out). -/
structure Dependency where
  kind : DependencyKind
  _id : Int
  _node_id : Int
  _name : String
  _is_write_dependency : Bool
  _shared_state : Option Nat
  _ready : Bool
  _parent : Option Nat
  _children : List Nat
  _last_log_time : Nat
  _blocked_task : List Nat
  _eos : Bool
  deriving DecidableEq, Repr

/-- The objects of one fragment: dependencies and shared states, addressed by index.
`set_ready_calls` is a ghost record (not program state): the receivers of the
`set_ready()` invocations made so far, oldest first. -/
structure Heap where
  deps : List Dependency
  shared_states : List BasicSharedState
  set_ready_calls : List Nat
  deriving DecidableEq, Repr

/-- Source: `Dependency(int id, int node_id, std::string name)`: not a write dependency, `_ready(false)`;
the other members take their default member initialisers. -/
def Dependency.create (id node_id : Int) (name : String) : Dependency :=
  { kind := DependencyKind.Dependency, _id := id, _node_id := node_id, _name := name,
    _is_write_dependency := false, _shared_state := none, _ready := false,
    _parent := none, _children := [], _last_log_time := 0, _blocked_task := [],
    _eos := false }

/-- Source: `Dependency(int id, int node_id, std::string name, bool ready)`: a write dependency,
`_ready(ready)`. -/
def Dependency.create_write (id node_id : Int) (name : String) (ready : Bool) : Dependency :=
  { kind := DependencyKind.Dependency, _id := id, _node_id := node_id, _name := name,
    _is_write_dependency := true, _shared_state := none, _ready := ready,
    _parent := none, _children := [], _last_log_time := 0, _blocked_task := [],
    _eos := false }

/-- Source: `FakeDependency(int id, int node_id) : Dependency(id, node_id, "FakeDependency")`. -/
def FakeDependency.create (id node_id : Int) : Dependency :=
  { Dependency.create id node_id "FakeDependency" with kind := DependencyKind.FakeDependency }

/-- Source: `AndDependency(int id, int node_id) : Dependency(id, node_id, "AndDependency")`. -/
def AndDependency.create (id node_id : Int) : Dependency :=
  { Dependency.create id node_id "AndDependency" with kind := DependencyKind.AndDependency }

/-- Source: `RuntimeFilterDependency(int id, int node_id, std::string name) : Dependency(id, node_id, name)`;
`_filters` is value-initialised and `_blocked_by_rf` is a null pointer. -/
def RuntimeFilterDependency.create (id node_id : Int) (name : String) : Dependency :=
  { Dependency.create id node_id name with
    kind := DependencyKind.RuntimeFilterDependency 0 none }

/-- Source: `AsyncWriterDependency(int id, int node_id)
        : Dependency(id, node_id, "AsyncWriterDependency", true)`. -/
def AsyncWriterDependency.create (id node_id : Int) : Dependency :=
  { Dependency.create_write id node_id "AsyncWriterDependency" true with
    kind := DependencyKind.AsyncWriterDependency }

/-- Source: `ResultSinkDependency(int id, int node_id)
        : Dependency(id, node_id, "ResultSinkDependency", true)`. -/
def ResultSinkDependency.create (id node_id : Int) : Dependency :=
  { Dependency.create_write id node_id "ResultSinkDependency" true with
    kind := DependencyKind.ResultSinkDependency }

/-- Source: `void add_child(std::shared_ptr<Dependency> child) { _children.push_back(child); }`. -/
def Dependency.add_child (d : Dependency) (child : Nat) : Dependency :=
  { d with _children := d._children ++ [child] }

/-- Source: `void set_shared_state(std::shared_ptr<BasicSharedState> shared_state)`. -/
def Dependency.set_shared_state (d : Dependency) (shared_state : Option Nat) : Dependency :=
  { d with _shared_state := shared_state }

/-- Placing a newly built object in the heap; the result is its address and the new heap. -/
def Heap.alloc (h : Heap) (d : Dependency) : Nat × Heap :=
  (h.deps.length, { h with deps := h.deps ++ [d] })

/-- Overwriting the object at address `p`. -/
def Heap.store (h : Heap) (p : Nat) (d : Dependency) : Heap :=
  { h with deps := h.deps.set p d }

/-- Modelled from the spec: `Dependency::set_ready()` is only declared in dependency.h
(line 101); its body is not under src/.  Spec 4.1: "`set_ready()` idempotently transitions
`ready` to true".  The receiver is appended to the ghost record of the heap. -/
def set_ready (h : Heap) (self : Nat) : Outcome Heap :=
  match h.deps[self]? with
  | none => Outcome.fault Fault.null_dereference
  | some d =>
    Outcome.ok { h with deps := h.deps.set self { d with _ready := true },
                        set_ready_calls := h.set_ready_calls ++ [self] }

/-- Source: `Dependency::block()`: `if (_eos) { return; } _ready = false;`. -/
def block (h : Heap) (self : Nat) : Outcome Heap :=
  match h.deps[self]? with
  | none => Outcome.fault Fault.null_dereference
  | some d =>
    if d._eos then Outcome.ok h
    else Outcome.ok (h.store self { d with _ready := false })

/-- Source: `Dependency::set_ready_to_read()`:
`DCHECK(_is_write_dependency); DCHECK(_shared_state->source_dep != nullptr);
 _shared_state->source_dep->set_ready();`. -/
def set_ready_to_read (h : Heap) (self : Nat) : Outcome Heap :=
  match h.deps[self]? with
  | none => Outcome.fault Fault.null_dereference
  | some d =>
    if !d._is_write_dependency then Outcome.fault Fault.dcheck_failed
    else
      match d._shared_state with
      | none => Outcome.fault Fault.null_dereference
      | some ss =>
        match h.shared_states[ss]? with
        | none => Outcome.fault Fault.null_dereference
        | some st =>
          match st.source_dep with
          | none => Outcome.fault Fault.dcheck_failed
          | some src => set_ready h src

/-- Source: `Dependency::set_eos()` with a recursion budget:
`if (_eos) return; _eos = true; set_ready();
 if (_is_write_dependency && _shared_state->source_dep != nullptr)
     _shared_state->source_dep->set_eos();`. -/
def set_eos_fuel : Nat → Heap → Nat → Outcome Heap
  | 0, _, _ => Outcome.fault Fault.out_of_fuel
  | fuel + 1, h, self =>
    match h.deps[self]? with
    | none => Outcome.fault Fault.null_dereference
    | some d =>
      if d._eos then Outcome.ok h
      else
        match set_ready (h.store self { d with _eos := true }) self with
        | Outcome.fault f => Outcome.fault f
        | Outcome.ok h1 =>
          if d._is_write_dependency then
            match d._shared_state with
            | none => Outcome.fault Fault.null_dereference
            | some ss =>
              match h1.shared_states[ss]? with
              | none => Outcome.fault Fault.null_dereference
              | some st =>
                match st.source_dep with
                | none => Outcome.ok h1
                | some src => set_eos_fuel fuel h1 src
          else Outcome.ok h1

/-- Source: `Dependency::set_eos()`.  Every nested call is made on an object whose `_eos` was false
and has just been set, so one unit of budget per object of the heap (and one for the
outermost call) is never exhausted. -/
def set_eos (h : Heap) (self : Nat) : Outcome Heap :=
  set_eos_fuel (h.deps.length + 1) h self

/-- Modelled from the spec: `Dependency::is_blocked_by` of the base class is only declared in
dependency.h (line 99); its body is not under src/.  Spec 4.1: "returns a pointer to the
blocking dependency (typically `this`) if `!ready && !eos`, else `nullptr`". -/
def Dependency.is_blocked_by (d : Dependency) (self : Nat) (_task : Option Nat) : Option Nat :=
  if !d._ready && !d._eos then some self else none

/-- Modelled from the spec: `RuntimeFilterDependency::is_blocked_by` is only declared in
dependency.h (line 205).  Spec 4.3: "the dependency is blocked while the count is above
zero, unless an externally-owned cancellation flag (`blocked_by_rf`) says otherwise". -/
def RuntimeFilterDependency.is_blocked_by (_filters : Int) (_blocked_by_rf : Option Bool)
    (self : Nat) (_task : Option Nat) : Option Nat :=
  if 0 < _filters && _blocked_by_rf != some false then some self else none

/-- The loop of `AndDependency::is_blocked_by`:
`for (auto& child : _children) { if (auto* dep = child->is_blocked_by(task)) return dep; }
 return nullptr;`, the virtual call on a child being `call`. -/
def AndDependency.is_blocked_by (call : Nat → Outcome (Option Nat)) :
    List Nat → Outcome (Option Nat)
  | [] => Outcome.ok none
  | child :: rest =>
    match call child with
    | Outcome.fault f => Outcome.fault f
    | Outcome.ok (some dep) => Outcome.ok (some dep)
    | Outcome.ok none => AndDependency.is_blocked_by call rest

/-- The virtual call `self->is_blocked_by(task)`, dispatched on the dynamic type of `self`,
with a budget for the nesting of composite dependencies. -/
def is_blocked_by_fuel : Nat → Heap → Nat → Option Nat → Outcome (Option Nat)
  | 0, _, _, _ => Outcome.fault Fault.out_of_fuel
  | fuel + 1, h, self, task =>
    match h.deps[self]? with
    | none => Outcome.fault Fault.null_dereference
    | some d =>
      match d.kind with
      | DependencyKind.FakeDependency => Outcome.ok none
      | DependencyKind.AndDependency =>
        AndDependency.is_blocked_by (fun child => is_blocked_by_fuel fuel h child task)
          d._children
      | DependencyKind.RuntimeFilterDependency filters flag =>
        Outcome.ok (RuntimeFilterDependency.is_blocked_by filters flag self task)
      | _ => Outcome.ok (d.is_blocked_by self task)

/-- The virtual call `self->is_blocked_by(task)`; a chain of nested composite dependencies
longer than the heap revisits an object and never ends. -/
def is_blocked_by (h : Heap) (self : Nat) (task : Option Nat) : Outcome (Option Nat) :=
  is_blocked_by_fuel (h.deps.length + 1) h self task

/-- Source: `bool eos() const { return _eos.load(); }`. -/
def eos (h : Heap) (self : Nat) : Outcome Bool :=
  match h.deps[self]? with
  | none => Outcome.fault Fault.null_dereference
  | some d => Outcome.ok d._eos

/-- The calls a sink or source operator makes on a dependency (spec 6). -/
inductive Call
  | set_ready (dep : Nat)
  | block (dep : Nat)
  | set_eos (dep : Nat)
  | set_ready_to_read (dep : Nat)
  deriving DecidableEq, Repr

/-- Performing one call. -/
def perform (h : Heap) : Call → Outcome Heap
  | Call.set_ready p => set_ready h p
  | Call.block p => block h p
  | Call.set_eos p => set_eos h p
  | Call.set_ready_to_read p => set_ready_to_read h p

/-- Performing a sequence of calls, first to last; a fault ends the run. -/
def run (h : Heap) : List Call → Outcome Heap
  | [] => Outcome.ok h
  | c :: rest =>
    match perform h c with
    | Outcome.fault f => Outcome.fault f
    | Outcome.ok h1 => run h1 rest

/-- The value held by an `int` after an operation of `std::atomic<int>` whose exact result
is `x`: atomic arithmetic on a signed 32-bit integer wraps in two's complement. -/
def wrap_int (x : Int) : Int :=
  (x + 2147483648) % 4294967296 - 2147483648

/-- Source: `struct LocalExchangeSharedState : public BasicSharedState` with
`std::vector<Dependency*> source_dependencies` and
`std::atomic<int> running_sink_operators = 0` (the block queues `data_queue` hold no
readiness state and are left out). -/
structure LocalExchangeSharedState extends BasicSharedState where
  source_dependencies : List (Option Nat)
  running_sink_operators : Int
  deriving DecidableEq, Repr

/-- Source: `void add_running_sink_operators() { running_sink_operators++; }`. -/
def LocalExchangeSharedState.add_running_sink_operators (s : LocalExchangeSharedState) :
    LocalExchangeSharedState :=
  { s with running_sink_operators := wrap_int (s.running_sink_operators + 1) }

/-- The loop of `_set_ready_for_read()` over the remaining channels:
`for (auto* dep : source_dependencies) { DCHECK(dep); dep->set_ready(); }`. -/
def LocalExchangeSharedState._set_ready_for_read_loop : List (Option Nat) → Heap → Outcome Heap
  | [], h => Outcome.ok h
  | none :: _, _ => Outcome.fault Fault.dcheck_failed
  | some dep :: rest, h =>
    match set_ready h dep with
    | Outcome.fault f => Outcome.fault f
    | Outcome.ok h1 => LocalExchangeSharedState._set_ready_for_read_loop rest h1

/-- Source: `LocalExchangeSharedState::_set_ready_for_read()`. -/
def LocalExchangeSharedState._set_ready_for_read (s : LocalExchangeSharedState) (h : Heap) :
    Outcome Heap :=
  LocalExchangeSharedState._set_ready_for_read_loop s.source_dependencies h

/-- Source: `LocalExchangeSharedState::sub_running_sink_operators()`:
`auto val = running_sink_operators.fetch_sub(1); if (val == 1) { _set_ready_for_read(); }`. -/
def LocalExchangeSharedState.sub_running_sink_operators (s : LocalExchangeSharedState)
    (h : Heap) : Outcome (LocalExchangeSharedState × Heap) :=
  let val := s.running_sink_operators
  let s1 : LocalExchangeSharedState := { s with running_sink_operators := wrap_int (val - 1) }
  if val = 1 then
    match s1._set_ready_for_read h with
    | Outcome.fault f => Outcome.fault f
    | Outcome.ok h1 => Outcome.ok (s1, h1)
  else Outcome.ok (s1, h)

/-- Source: `LocalExchangeSharedState::set_dep_by_channel_id(Dependency* dep, int channel_id)`:
`source_dependencies[channel_id] = dep; dep->block();`. -/
def LocalExchangeSharedState.set_dep_by_channel_id (s : LocalExchangeSharedState) (h : Heap)
    (dep : Option Nat) (channel_id : Int) : Outcome (LocalExchangeSharedState × Heap) :=
  if channel_id < 0 ∨ (s.source_dependencies.length : Int) ≤ channel_id then
    Outcome.fault Fault.index_out_of_range
  else
    let s1 : LocalExchangeSharedState :=
      { s with source_dependencies := s.source_dependencies.set channel_id.toNat dep }
    match dep with
    | none => Outcome.fault Fault.null_dereference
    | some p =>
      match block h p with
      | Outcome.fault f => Outcome.fault f
      | Outcome.ok h1 => Outcome.ok (s1, h1)

/-- Source: `LocalExchangeSharedState::set_ready_for_read(int channel_id)`:
`auto* dep = source_dependencies[channel_id]; DCHECK(dep); dep->set_ready();`. -/
def LocalExchangeSharedState.set_ready_for_read (s : LocalExchangeSharedState) (h : Heap)
    (channel_id : Int) : Outcome (LocalExchangeSharedState × Heap) :=
  if channel_id < 0 ∨ (s.source_dependencies.length : Int) ≤ channel_id then
    Outcome.fault Fault.index_out_of_range
  else
    match s.source_dependencies[channel_id.toNat]? with
    | none => Outcome.fault Fault.index_out_of_range
    | some none => Outcome.fault Fault.dcheck_failed
    | some (some p) =>
      match set_ready h p with
      | Outcome.fault f => Outcome.fault f
      | Outcome.ok h1 => Outcome.ok (s, h1)

/-- Source: `void set_blocked_by_rf(std::shared_ptr<std::atomic_bool> blocked_by_rf)
{ _blocked_by_rf = blocked_by_rf; }`; on an object of another class the member does not
exist and the object is returned as it is. -/
def Dependency.set_blocked_by_rf (d : Dependency) (blocked_by_rf : Option Bool) : Dependency :=
  match d.kind with
  | DependencyKind.RuntimeFilterDependency filters _ =>
    { d with kind := DependencyKind.RuntimeFilterDependency filters blocked_by_rf }
  | _ => d

/-- Modelled from the spec: `RuntimeFilterDependency::add_filters` is only declared in
dependency.h (line 206); its body is not under src/.  Spec 4.3: "`add_filters` increments
when a filter is registered as pending".  The filter handle is not used by the model.  A
pointer of type `RuntimeFilterDependency*` to an object of another class does not exist: a
fault. -/
def add_filters (h : Heap) (self : Nat) : Outcome Heap :=
  match h.deps[self]? with
  | none => Outcome.fault Fault.null_dereference
  | some d =>
    match d.kind with
    | DependencyKind.RuntimeFilterDependency filters flag =>
      Outcome.ok (h.store self
        { d with kind := DependencyKind.RuntimeFilterDependency (filters + 1) flag })
    | _ => Outcome.fault Fault.null_dereference

/-- Modelled from the spec: `RuntimeFilterDependency::sub_filters` is only declared in
dependency.h (line 207); its body is not under src/.  Spec 4.3: "`sub_filters` decrements on
arrival or timeout". -/
def sub_filters (h : Heap) (self : Nat) : Outcome Heap :=
  match h.deps[self]? with
  | none => Outcome.fault Fault.null_dereference
  | some d =>
    match d.kind with
    | DependencyKind.RuntimeFilterDependency filters flag =>
      Outcome.ok (h.store self
        { d with kind := DependencyKind.RuntimeFilterDependency (filters - 1) flag })
    | _ => Outcome.fault Fault.null_dereference

/-- Source: the data members of `class RuntimeFilterTimer` (the mutex `_lock` carries no
sequential state; `_runtime_filter` is an opaque handle). -/
structure RuntimeFilterTimer where
  _call_ready : Bool
  _call_timeout : Bool
  _parent : Option Nat
  _registration_time : Int
  _wait_time_ms : Int
  _runtime_filter : Option Nat
  deriving DecidableEq, Repr

/-- Source: `RuntimeFilterTimer(int64_t registration_time, int32_t wait_time_ms,
std::shared_ptr<RuntimeFilterDependency> parent, IRuntimeFilter* runtime_filter)`;
`bool _call_ready {}; bool _call_timeout {};` start false. -/
def RuntimeFilterTimer.create (registration_time wait_time_ms : Int) (parent : Option Nat)
    (runtime_filter : Option Nat) : RuntimeFilterTimer :=
  { _call_ready := false, _call_timeout := false, _parent := parent,
    _registration_time := registration_time, _wait_time_ms := wait_time_ms,
    _runtime_filter := runtime_filter }

/-- Modelled from the spec: the delivery made by `call_ready()` and `call_timeout()` to the
parent dependency, whose bodies are not under src/.  Spec 4.3: "`sub_filters` decrements on
arrival or timeout"; a timer without parent delivers to nobody. -/
def RuntimeFilterTimer.deliver (t : RuntimeFilterTimer) (h : Heap) : Outcome Heap :=
  match t._parent with
  | none => Outcome.ok h
  | some p => sub_filters h p

/-- Modelled from the spec: `RuntimeFilterTimer::call_ready()` is only declared in
dependency.h (line 178).  Spec 4.3: "`call_ready()` fires when the filter arrives before the
deadline"; "State machine: {registered} → {ready} | {timed-out}, terminal on either edge";
"the already-latched state prevents double delivery". -/
def RuntimeFilterTimer.call_ready (t : RuntimeFilterTimer) (h : Heap) :
    Outcome (RuntimeFilterTimer × Heap) :=
  if t._call_ready || t._call_timeout then Outcome.ok (t, h)
  else
    match t.deliver h with
    | Outcome.fault f => Outcome.fault f
    | Outcome.ok h1 => Outcome.ok ({ t with _call_ready := true }, h1)

/-- Modelled from the spec: `RuntimeFilterTimer::call_timeout()` is only declared in
dependency.h (line 180).  Spec 4.3: "`call_timeout()` fires when the budget is exhausted
first"; "State machine: {registered} → {ready} | {timed-out}, terminal on either edge". -/
def RuntimeFilterTimer.call_timeout (t : RuntimeFilterTimer) (h : Heap) :
    Outcome (RuntimeFilterTimer × Heap) :=
  if t._call_ready || t._call_timeout then Outcome.ok (t, h)
  else
    match t.deliver h with
    | Outcome.fault f => Outcome.fault f
    | Outcome.ok h1 => Outcome.ok ({ t with _call_timeout := true }, h1)

/-- Modelled from the spec: `RuntimeFilterTimer::has_ready()` is only declared in
dependency.h (line 186).  Spec 8: "if `call_ready()` is invoked before the wait budget
elapses, `has_ready()` returns true". -/
def RuntimeFilterTimer.has_ready (t : RuntimeFilterTimer) : Bool :=
  t._call_ready

/-- Source: `Dependency::_should_log(uint64_t cur_time)`:
`if (cur_time < SLOW_DEPENDENCY_THRESHOLD) return false;
 if ((cur_time - _last_log_time) < TIME_UNIT_DEPENDENCY_LOG) return false;
 _last_log_time = cur_time; return true;`; the subtraction is that of `uint64_t`. -/
def Dependency._should_log (d : Dependency) (cur_time : Nat) : Bool × Dependency :=
  if cur_time < SLOW_DEPENDENCY_THRESHOLD then (false, d)
  else if (cur_time + 18446744073709551616 - d._last_log_time) % 18446744073709551616
      < TIME_UNIT_DEPENDENCY_LOG then (false, d)
  else (true, { d with _last_log_time := cur_time })

/-- The enumerators of `PrimitiveType` that `SetSharedState::hash_table_init` names in its
`switch`; the enum itself is declared outside src/, and every enumerator the `switch` does
not name is an `other`. -/
inductive PrimitiveType
  | TYPE_BOOLEAN
  | TYPE_TINYINT
  | TYPE_SMALLINT
  | TYPE_INT
  | TYPE_FLOAT
  | TYPE_DATEV2
  | TYPE_DECIMAL32
  | TYPE_BIGINT
  | TYPE_DOUBLE
  | TYPE_DATETIME
  | TYPE_DATE
  | TYPE_DECIMAL64
  | TYPE_DATETIMEV2
  | TYPE_LARGEINT
  | TYPE_DECIMALV2
  | TYPE_DECIMAL128I
  | other (code : Nat)
  deriving DecidableEq, Repr

/-- The alternatives of `vectorized::HashTableVariants` that `hash_table_init` emplaces, all
instantiated with `RowRefListWithFlags`; the variant type is declared outside src/, and every
alternative this header does not name (the empty state, the fixed-key contexts) is an
`other`. -/
inductive HashTableVariants
  | I8HashTableContext
  | I16HashTableContext
  | I32HashTableContext
  | I64HashTableContext
  | I128HashTableContext
  | SerializedHashTableContext
  | other (index : Nat)
  deriving DecidableEq, Repr

/-- An expression context of `vectorized::VExprContextSPtrs`, as far as `hash_table_init`
reads it: `root()->result_type()`, and an identifier standing for the rest of the
expression. -/
structure VExprContext where
  result_type : PrimitiveType
  expr : Nat
  deriving DecidableEq, Repr

/-- Source: the data members of `struct SetSharedState : public BasicSharedState` that hold no
block data (`build_blocks` and `build_col_idx` are left out); `hash_table_variants` is a
`std::unique_ptr`, `none` being the null pointer. -/
structure SetSharedState extends BasicSharedState where
  mem_used : Int
  build_block_index : Int
  valid_element_in_hash_tbl : Int
  hash_table_variants : Option HashTableVariants
  build_not_ignore_null : List Bool
  child_exprs_lists : List (List VExprContext)
  child_quantity : Int
  build_child_exprs : List VExprContext
  probe_finished_children_dependency : List (Option Nat)
  probe_child_exprs_lists : List (List VExprContext)
  ready_for_read : Bool
  deriving DecidableEq, Repr

/-- The `switch` of `hash_table_init` on the result type of the single key expression: the
alternative emplaced for each `case` label, `default` included. -/
def SetSharedState.single_column_variant : PrimitiveType → HashTableVariants
  | PrimitiveType.TYPE_BOOLEAN => HashTableVariants.I8HashTableContext
  | PrimitiveType.TYPE_TINYINT => HashTableVariants.I8HashTableContext
  | PrimitiveType.TYPE_SMALLINT => HashTableVariants.I16HashTableContext
  | PrimitiveType.TYPE_INT => HashTableVariants.I32HashTableContext
  | PrimitiveType.TYPE_FLOAT => HashTableVariants.I32HashTableContext
  | PrimitiveType.TYPE_DATEV2 => HashTableVariants.I32HashTableContext
  | PrimitiveType.TYPE_DECIMAL32 => HashTableVariants.I32HashTableContext
  | PrimitiveType.TYPE_BIGINT => HashTableVariants.I64HashTableContext
  | PrimitiveType.TYPE_DOUBLE => HashTableVariants.I64HashTableContext
  | PrimitiveType.TYPE_DATETIME => HashTableVariants.I64HashTableContext
  | PrimitiveType.TYPE_DATE => HashTableVariants.I64HashTableContext
  | PrimitiveType.TYPE_DECIMAL64 => HashTableVariants.I64HashTableContext
  | PrimitiveType.TYPE_DATETIMEV2 => HashTableVariants.I64HashTableContext
  | PrimitiveType.TYPE_LARGEINT => HashTableVariants.I128HashTableContext
  | PrimitiveType.TYPE_DECIMALV2 => HashTableVariants.I128HashTableContext
  | PrimitiveType.TYPE_DECIMAL128I => HashTableVariants.I128HashTableContext
  | PrimitiveType.other _ => HashTableVariants.SerializedHashTableContext

/-- Source: `hash_table_variants->emplace<T>()`: the variant holds the alternative `T`
afterwards; nothing else of the shared state changes. -/
def SetSharedState.emplace (s : SetSharedState) (v : HashTableVariants) : SetSharedState :=
  { s with hash_table_variants := some v }

/-- The condition of the first `if` of `hash_table_init`:
`child_exprs_lists[0].size() == 1 && (!build_not_ignore_null[0])`, for `first` the list
`child_exprs_lists[0]`; the right operand is evaluated only when the left one holds. -/
def SetSharedState.single_column (s : SetSharedState) (first : List VExprContext) :
    Outcome Bool :=
  if first.length = 1 then
    match s.build_not_ignore_null with
    | [] => Outcome.fault Fault.index_out_of_range
    | b :: _ => Outcome.ok (!b)
  else Outcome.ok false

/-- Source: `SetSharedState::hash_table_init()`:
`if (child_exprs_lists[0].size() == 1 && (!build_not_ignore_null[0])) { switch (...) {...}
 return; }
 if (!try_get_hash_map_context_fixed<...>(*hash_table_variants, child_exprs_lists[0]))
     hash_table_variants->emplace<SerializedHashTableContext<...>>();`.
The function template `try_get_hash_map_context_fixed` is defined outside src/ and is a
parameter: from the current variant and the key expressions it gives its `bool` result and
the variant it leaves. -/
def SetSharedState.hash_table_init
    (try_get_hash_map_context_fixed :
      HashTableVariants → List VExprContext → Bool × HashTableVariants)
    (s : SetSharedState) : Outcome SetSharedState :=
  match s.child_exprs_lists with
  | [] => Outcome.fault Fault.index_out_of_range
  | first :: _ =>
    match s.single_column first with
    | Outcome.fault f => Outcome.fault f
    | Outcome.ok true =>
      match first with
      | [] => Outcome.fault Fault.index_out_of_range
      | key :: _ =>
        match s.hash_table_variants with
        | none => Outcome.fault Fault.null_dereference
        | some _ => Outcome.ok (s.emplace (SetSharedState.single_column_variant key.result_type))
    | Outcome.ok false =>
      match s.hash_table_variants with
      | none => Outcome.fault Fault.null_dereference
      | some v =>
        if (try_get_hash_map_context_fixed v first).1 then
          Outcome.ok (s.emplace (try_get_hash_map_context_fixed v first).2)
        else Outcome.ok (s.emplace HashTableVariants.SerializedHashTableContext)

/-! ## Auxiliary definitions: frame relation and example heaps -/

/-- A dependency with its two flags cleared: what no operation of the core changes. -/
def Dependency.erase_flags (d : Dependency) : Dependency :=
  { d with _ready := false, _eos := false }

/-- The heap after the statements `_eos = true; set_ready();` of `set_eos()` on the object
`d` at `p`. -/
def Heap.eos_marked (h : Heap) (p : Nat) (d : Dependency) : Heap :=
  { h with deps := h.deps.set p { d with _ready := true, _eos := true },
           set_ready_calls := h.set_ready_calls ++ [p] }

/-- The relation between a heap and the heap after some calls: wiring and dynamic types are
kept, `_eos` only rises, an object at end of stream stays ready, an object that reaches end
of stream is ready, and an object on which `set_ready()` was not invoked has no flag raised. -/
structure Follows (h h' : Heap) : Prop where
  shared : h'.shared_states = h.shared_states
  shape : h'.deps.map Dependency.erase_flags = h.deps.map Dependency.erase_flags
  calls : ∀ p, h.set_ready_calls.count p ≤ h'.set_ready_calls.count p
  eos_kept : ∀ (p : Nat) (d d' : Dependency), h.deps[p]? = some d → h'.deps[p]? = some d' →
    d._eos = true → d'._eos = true
  ready_kept : ∀ (p : Nat) (d d' : Dependency), h.deps[p]? = some d → h'.deps[p]? = some d' →
    d._eos = true → d._ready = true → d'._ready = true
  eos_ready : ∀ (p : Nat) (d d' : Dependency), h.deps[p]? = some d → h'.deps[p]? = some d' →
    d._eos = false → d'._eos = true → d'._ready = true
  untouched : ∀ (p : Nat) (d d' : Dependency), h.deps[p]? = some d → h'.deps[p]? = some d' →
    h'.set_ready_calls.count p = h.set_ready_calls.count p →
    (d'._ready = true → d._ready = true) ∧ (d'._eos = true → d._eos = true)

/-- The dynamic types whose `is_blocked_by` returns null as soon as `_ready` or `_eos` is set:
the classes that inherit `Dependency::is_blocked_by`, and `FakeDependency`, which always
returns null.  `AndDependency` and `RuntimeFilterDependency` override the method without
reading the two flags. -/
def DependencyKind.ready_means_unblocked : DependencyKind → Bool
  | DependencyKind.Dependency => true
  | DependencyKind.FakeDependency => true
  | DependencyKind.AsyncWriterDependency => true
  | DependencyKind.ResultSinkDependency => true
  | DependencyKind.AndDependency => false
  | DependencyKind.RuntimeFilterDependency _ _ => false

/-- The dynamic types that inherit `Dependency::is_blocked_by` unchanged. -/
def DependencyKind.inherits_is_blocked_by : DependencyKind → Bool
  | DependencyKind.Dependency => true
  | DependencyKind.AsyncWriterDependency => true
  | DependencyKind.ResultSinkDependency => true
  | _ => false

/-- The assignment `shared_state->source_dep = dep`, made by the operator that owns the
source side of a boundary (`source_dep` is a public data member). -/
def Heap.set_source_dep (h : Heap) (ss : Nat) (dep : Option Nat) : Heap :=
  match h.shared_states[ss]? with
  | none => h
  | some st => { h with shared_states := h.shared_states.set ss { st with source_dep := dep } }

/-- Example heap: a write dependency (address 0, built blocked) and a source dependency
(address 1) coupled through shared state 0. -/
def Example.boundary : Heap :=
  { deps := [ (Dependency.create_write 0 0 "sink" false).set_shared_state (some 0),
              (Dependency.create 1 0 "source").set_shared_state (some 0) ],
    shared_states := [ { source_dep := some 1, sink_dep := some 0 } ],
    set_ready_calls := [] }

/-- Example heap: as `Example.boundary`, before the source side has registered itself in the
shared state (`source_dep` still null). -/
def Example.unpaired : Heap :=
  { deps := [ (Dependency.create_write 0 0 "sink" false).set_shared_state (some 0),
              (Dependency.create 1 0 "source").set_shared_state (some 0) ],
    shared_states := [ { source_dep := none, sink_dep := some 0 } ],
    set_ready_calls := [] }

/-- Example heap: a write dependency (address 0) whose shared state names as source an
`AndDependency` (address 1) with one child (address 2), a plain blocked dependency. -/
def Example.and_source : Heap :=
  { deps := [ (Dependency.create_write 0 0 "sink" false).set_shared_state (some 0),
              (AndDependency.create 1 0).add_child 2,
              Dependency.create 2 0 "child" ],
    shared_states := [ { source_dep := some 1, sink_dep := some 0 } ],
    set_ready_calls := [] }

/-- Example heap: an `AndDependency` (address 0) with children `C1` (address 1, built
blocked) and `C2` (address 2, built ready), in insertion order. -/
def Example.composite : Heap :=
  { deps := [ ((AndDependency.create 0 0).add_child 1).add_child 2,
              Dependency.create 1 0 "C1",
              Dependency.create_write 2 0 "C2" true ],
    shared_states := [],
    set_ready_calls := [] }

/-- Example heap: one newly built `FakeDependency`. -/
def Example.fake : Heap :=
  { deps := [ FakeDependency.create 0 0 ], shared_states := [], set_ready_calls := [] }

/-- Example heap: one newly built plain `Dependency` (three-argument constructor). -/
def Example.plain : Heap :=
  { deps := [ Dependency.create 0 0 "plain" ], shared_states := [], set_ready_calls := [] }

/-- Example heap: one write dependency built with `ready = true`. -/
def Example.ready_writer : Heap :=
  { deps := [ Dependency.create_write 0 0 "writer" true ], shared_states := [],
    set_ready_calls := [] }

/-- No dependency of the heap is at end of stream: the state the constructors leave
(`std::atomic<bool> _eos {false}`). -/
def Heap.no_eos (h : Heap) : Bool :=
  h.deps.all (fun d => !d._eos)

/-- Every dependency of the heap that is at end of stream is ready. -/
def Heap.eos_implies_ready (h : Heap) : Bool :=
  h.deps.all (fun d => !d._eos || d._ready)

/-- Example heap: `Example.boundary` after `set_eos()` on the sink: both dependencies at end
of stream and ready, `set_ready()` invoked on the sink and then on the source. -/
def Example.boundary_done : Heap :=
  { deps := [ { (Dependency.create_write 0 0 "sink" false).set_shared_state (some 0) with
                _ready := true, _eos := true },
              { (Dependency.create 1 0 "source").set_shared_state (some 0) with
                _ready := true, _eos := true } ],
    shared_states := [ { source_dep := some 1, sink_dep := some 0 } ],
    set_ready_calls := [0, 1] }

/-- Example heap: `Example.plain` after `set_ready()` on its dependency. -/
def Example.plain_ready : Heap :=
  { deps := [ { Dependency.create 0 0 "plain" with _ready := true } ],
    shared_states := [],
    set_ready_calls := [0] }

/-- Example heap: `Example.boundary` after `set_ready()` on the source. -/
def Example.boundary_source_ready : Heap :=
  { deps := [ (Dependency.create_write 0 0 "sink" false).set_shared_state (some 0),
              { (Dependency.create 1 0 "source").set_shared_state (some 0) with
                _ready := true } ],
    shared_states := [ { source_dep := some 1, sink_dep := some 0 } ],
    set_ready_calls := [1] }

/-- The virtual call `self->is_blocked_by(task)` returns `r`: some recursion budget is enough
for the model to produce `r`. -/
def is_blocked_by_returns (h : Heap) (self : Nat) (task : Option Nat) (r : Option Nat) : Prop :=
  ∃ fuel, is_blocked_by_fuel fuel h self task = Outcome.ok r

/-- The state after `n` successive calls of `add_running_sink_operators()`. -/
def LocalExchangeSharedState.add_times : Nat → LocalExchangeSharedState →
    LocalExchangeSharedState
  | 0, s => s
  | n + 1, s => LocalExchangeSharedState.add_times n s.add_running_sink_operators

/-- The state and heap after `n` successive calls of `sub_running_sink_operators()`. -/
def LocalExchangeSharedState.sub_times : Nat → LocalExchangeSharedState → Heap →
    Outcome (LocalExchangeSharedState × Heap)
  | 0, s, h => Outcome.ok (s, h)
  | n + 1, s, h =>
    match s.sub_running_sink_operators h with
    | Outcome.fault f => Outcome.fault f
    | Outcome.ok (s1, h1) => LocalExchangeSharedState.sub_times n s1 h1

/-- The dependency at `p` is blocked: `is_blocked_by` returns a non-null pointer. -/
def is_blocked (h : Heap) (p : Nat) : Bool :=
  match is_blocked_by h p none with
  | Outcome.ok (some _) => true
  | _ => false

/-- The dependencies bound to the channels, in channel order (null entries dropped). -/
def LocalExchangeSharedState.bound (s : LocalExchangeSharedState) : List Nat :=
  s.source_dependencies.filterMap id

/-- Every channel is bound to a blocked dependency of the heap. -/
def LocalExchangeSharedState.all_blocked (s : LocalExchangeSharedState) (h : Heap) : Bool :=
  s.source_dependencies.all (fun c =>
    match c with
    | none => false
    | some p => is_blocked h p)

/-- Example heap: two newly built plain dependencies, one per exchange channel. -/
def Example.channels : Heap :=
  { deps := [ Dependency.create 0 0 "channel0", Dependency.create 1 0 "channel1" ],
    shared_states := [],
    set_ready_calls := [] }

/-- Example local exchange: two channels bound to the dependencies of `Example.channels`, no
running sink operator. -/
def Example.exchange : LocalExchangeSharedState :=
  { source_dep := none, sink_dep := none,
    source_dependencies := [some 0, some 1],
    running_sink_operators := 0 }

/-- Example heap: `Example.channels` after `set_ready()` on channel 0 and then channel 1. -/
def Example.channels_ready : Heap :=
  { deps := [ { Dependency.create 0 0 "channel0" with _ready := true },
              { Dependency.create 1 0 "channel1" with _ready := true } ],
    shared_states := [],
    set_ready_calls := [0, 1] }

/-- The number of dependencies of the heap not yet at end of stream. -/
def Heap.pending (h : Heap) : Nat :=
  h.deps.countP (fun d => !d._eos)

/-- Example local exchange: two channels, none bound yet, no running sink operator. -/
def Example.unbound_exchange : LocalExchangeSharedState :=
  { source_dep := none, sink_dep := none,
    source_dependencies := [none, none],
    running_sink_operators := 0 }

/-- Example heap: `Example.channels` with channel 0's dependency made ready. -/
def Example.channels_first_ready : Heap :=
  { deps := [ { Dependency.create 0 0 "channel0" with _ready := true },
              Dependency.create 1 0 "channel1" ],
    shared_states := [],
    set_ready_calls := [0] }

/-- A dependency that is a write dependency has, among the shared states `shared`, a live
shared state whose `source_dep` is null or one of the first `n` addresses. -/
def Dependency.paired_in (shared : List BasicSharedState) (n : Nat) (d : Dependency) : Bool :=
  !d._is_write_dependency ||
    match d._shared_state with
    | none => false
    | some ss =>
      match shared[ss]? with
      | none => false
      | some st =>
        match st.source_dep with
        | none => true
        | some src => decide (src < n)

/-- Every write dependency of the heap has a shared state attached, and the `source_dep` of
that shared state is null or a live dependency. -/
def Heap.write_deps_paired (h : Heap) : Bool :=
  h.deps.all (Dependency.paired_in h.shared_states h.deps.length)

/-- Example heap: one newly built `AsyncWriterDependency`, no shared state attached. -/
def Example.async_writer : Heap :=
  { deps := [ AsyncWriterDependency.create 0 0 ], shared_states := [], set_ready_calls := [] }

/-- A newly built `ResultSinkDependency`: a write dependency, ready, with no shared state
attached. -/
def Example.result_sink : Heap :=
  { deps := [ ResultSinkDependency.create 0 0 ], shared_states := [], set_ready_calls := [] }

/-- The two calls that change the outstanding-filter count of a `RuntimeFilterDependency`. -/
inductive FilterCall
  | add_filters
  | sub_filters
  deriving DecidableEq, Repr

/-- Performing a sequence of `add_filters` / `sub_filters` calls on the dependency at `self`,
first to last. -/
def filter_calls (h : Heap) (self : Nat) : List FilterCall → Outcome Heap
  | [] => Outcome.ok h
  | FilterCall.add_filters :: rest =>
    match add_filters h self with
    | Outcome.fault f => Outcome.fault f
    | Outcome.ok h1 => filter_calls h1 self rest
  | FilterCall.sub_filters :: rest =>
    match sub_filters h self with
    | Outcome.fault f => Outcome.fault f
    | Outcome.ok h1 => filter_calls h1 self rest

/-- Example heap: one newly built `RuntimeFilterDependency`. -/
def Example.runtime_filter : Heap :=
  { deps := [ RuntimeFilterDependency.create 0 0 "rf" ], shared_states := [],
    set_ready_calls := [] }

/-- The object `d` as a `RuntimeFilterDependency` holding the given count and flag. -/
def Dependency.with_filters (d : Dependency) (filters : Int) (flag : Option Bool) :
    Dependency :=
  { d with kind := DependencyKind.RuntimeFilterDependency filters flag }

/-- The two events the runtime filter delivery subsystem raises on a timer. -/
inductive TimerCall
  | call_ready
  | call_timeout
  deriving DecidableEq, Repr

/-- Performing one call on a timer. -/
def RuntimeFilterTimer.perform (t : RuntimeFilterTimer) (h : Heap) :
    TimerCall → Outcome (RuntimeFilterTimer × Heap)
  | TimerCall.call_ready => t.call_ready h
  | TimerCall.call_timeout => t.call_timeout h

/-- Performing a sequence of `call_ready` / `call_timeout` calls on a timer, first to last. -/
def timer_calls (t : RuntimeFilterTimer) (h : Heap) :
    List TimerCall → Outcome (RuntimeFilterTimer × Heap)
  | [] => Outcome.ok (t, h)
  | c :: rest =>
    match t.perform h c with
    | Outcome.fault f => Outcome.fault f
    | Outcome.ok (t1, h1) => timer_calls t1 h1 rest

/-- Example heap: a `RuntimeFilterDependency` with one filter outstanding. -/
def Example.one_filter_pending : Heap :=
  { deps := [ (RuntimeFilterDependency.create 0 0 "rf").with_filters 1 none ],
    shared_states := [], set_ready_calls := [] }

/-- Example heap: two write dependencies whose shared states name each other as source. -/
def Example.cycle : Heap :=
  { deps := [ (Dependency.create_write 0 0 "a" false).set_shared_state (some 0),
              (Dependency.create_write 1 0 "b" false).set_shared_state (some 1) ],
    shared_states := [ { source_dep := some 1, sink_dep := some 0 },
                       { source_dep := some 0, sink_dep := some 1 } ],
    set_ready_calls := [] }

/-- Example heap: `Example.cycle` after `set_eos()` on either dependency started at address
0: both at end of stream and ready, `set_ready()` invoked once on each. -/
def Example.cycle_done : Heap :=
  { deps := [ { (Dependency.create_write 0 0 "a" false).set_shared_state (some 0) with
                _ready := true, _eos := true },
              { (Dependency.create_write 1 0 "b" false).set_shared_state (some 1) with
                _ready := true, _eos := true } ],
    shared_states := [ { source_dep := some 1, sink_dep := some 0 },
                       { source_dep := some 0, sink_dep := some 1 } ],
    set_ready_calls := [0, 1] }

/-- Example heap: a write dependency whose shared state names the dependency itself as
source. -/
def Example.self_loop : Heap :=
  { deps := [ (Dependency.create_write 0 0 "self" false).set_shared_state (some 0) ],
    shared_states := [ { source_dep := some 0, sink_dep := some 0 } ],
    set_ready_calls := [] }

/-- Example heap: `Example.self_loop` after `set_eos()` on its dependency. -/
def Example.self_loop_done : Heap :=
  { deps := [ { (Dependency.create_write 0 0 "self" false).set_shared_state (some 0) with
                _ready := true, _eos := true } ],
    shared_states := [ { source_dep := some 0, sink_dep := some 0 } ],
    set_ready_calls := [0] }

/-- Example heap: a dependency that is not a write dependency (address 0) whose shared state
names another dependency (address 1) as source. -/
def Example.reader : Heap :=
  { deps := [ (Dependency.create 0 0 "reader").set_shared_state (some 0),
              Dependency.create 1 0 "other" ],
    shared_states := [ { source_dep := some 1, sink_dep := none } ],
    set_ready_calls := [] }

/-- Example heap: `Example.reader` after `set_eos()` on the dependency at address 0. -/
def Example.reader_done : Heap :=
  { deps := [ { (Dependency.create 0 0 "reader").set_shared_state (some 0) with
                _ready := true, _eos := true },
              Dependency.create 1 0 "other" ],
    shared_states := [ { source_dep := some 1, sink_dep := none } ],
    set_ready_calls := [0] }

/-- The answers of successive `_should_log` calls on one dependency, one per elapsed time of
the list, with the dependency as the last call leaves it. -/
def Dependency._should_log_times (d : Dependency) : List Nat → List Bool × Dependency
  | [] => ([], d)
  | t :: rest =>
    ((d._should_log t).1 :: ((d._should_log t).2._should_log_times rest).1,
      ((d._should_log t).2._should_log_times rest).2)

/-- The outcome with a function applied to the value returned. -/
def Outcome.map {α β : Type} (g : α → β) : Outcome α → Outcome β
  | Outcome.fault f => Outcome.fault f
  | Outcome.ok a => Outcome.ok (g a)

/-- The shared state with its per-child expression lists replaced. -/
def SetSharedState.with_children (s : SetSharedState) (lists : List (List VExprContext)) :
    SetSharedState :=
  { s with child_exprs_lists := lists }

/-- Example set shared state: two children; the first has the single key expression of type
`TYPE_INT` and ignores nulls, the variant is allocated and still empty. -/
def Example.set_state : SetSharedState :=
  { source_dep := none, sink_dep := none,
    mem_used := 0, build_block_index := 0, valid_element_in_hash_tbl := 0,
    hash_table_variants := some (HashTableVariants.other 0),
    build_not_ignore_null := [false, true],
    child_exprs_lists := [ [ { result_type := PrimitiveType.TYPE_INT, expr := 0 } ],
                           [ { result_type := PrimitiveType.TYPE_BIGINT, expr := 1 },
                             { result_type := PrimitiveType.TYPE_DATE, expr := 2 } ] ],
    child_quantity := 2, build_child_exprs := [],
    probe_finished_children_dependency := [none, none],
    probe_child_exprs_lists := [],
    ready_for_read := false }

/-- Example stand-in for `try_get_hash_map_context_fixed`: never finds a fixed-key context
and leaves the variant as it is. -/
def Example.no_fixed_context (v : HashTableVariants) (_keys : List VExprContext) :
    Bool × HashTableVariants :=
  (false, v)

/-! ## Lemmas -/

theorem Follows.refl (h : Heap) : Follows h h := by
  refine ⟨rfl, rfl, fun _ => le_rfl, ?_, ?_, ?_, ?_⟩
  · intro p d d' h1 h2 h3
    rw [h1] at h2; cases h2; exact h3
  · intro p d d' h1 h2 _ h3
    rw [h1] at h2; cases h2; exact h3
  · intro p d d' h1 h2 h3 h4
    rw [h1] at h2; cases h2; rw [h3] at h4; cases h4
  · intro p d d' h1 h2 _
    rw [h1] at h2; cases h2; exact ⟨id, id⟩

theorem Follows.lookup {h h' : Heap} (f : Follows h h') {p : Nat} {d : Dependency}
    (hd : h.deps[p]? = some d) :
    ∃ d', h'.deps[p]? = some d' ∧ d'.erase_flags = d.erase_flags := by
  have := congrArg (fun l => l[p]?) f.shape
  simp only [List.getElem?_map, hd, Option.map_some'] at this
  cases h2 : h'.deps[p]? with
  | none => rw [h2] at this; cases this
  | some d' =>
    rw [h2] at this
    simp only [Option.map_some', Option.some.injEq] at this
    exact ⟨d', rfl, this⟩

theorem Follows.lookup_back {h h' : Heap} (f : Follows h h') {p : Nat} {d' : Dependency}
    (hd : h'.deps[p]? = some d') :
    ∃ d, h.deps[p]? = some d ∧ d'.erase_flags = d.erase_flags := by
  have := congrArg (fun l => l[p]?) f.shape
  simp only [List.getElem?_map, hd, Option.map_some'] at this
  cases h2 : h.deps[p]? with
  | none => rw [h2] at this; cases this
  | some d =>
    rw [h2] at this
    simp only [Option.map_some', Option.some.injEq] at this
    exact ⟨d, rfl, this⟩

theorem Follows.length {h h' : Heap} (f : Follows h h') : h'.deps.length = h.deps.length := by
  have := congrArg List.length f.shape
  simpa using this

theorem Follows.trans {h1 h2 h3 : Heap} (f : Follows h1 h2) (g : Follows h2 h3) :
    Follows h1 h3 := by
  refine ⟨g.shared.trans f.shared, g.shape.trans f.shape,
    fun p => (f.calls p).trans (g.calls p), ?_, ?_, ?_, ?_⟩
  · intro p d d' hd hd' he
    obtain ⟨m, hm, _⟩ := f.lookup hd
    exact g.eos_kept p m d' hm hd' (f.eos_kept p d m hd hm he)
  · intro p d d' hd hd' he hr
    obtain ⟨m, hm, _⟩ := f.lookup hd
    exact g.ready_kept p m d' hm hd' (f.eos_kept p d m hd hm he)
      (f.ready_kept p d m hd hm he hr)
  · intro p d d' hd hd' he he'
    obtain ⟨m, hm, _⟩ := f.lookup hd
    cases hme : m._eos with
    | false => exact g.eos_ready p m d' hm hd' hme he'
    | true => exact g.ready_kept p m d' hm hd' hme (f.eos_ready p d m hd hm he hme)
  · intro p d d' hd hd' hc
    obtain ⟨m, hm, _⟩ := f.lookup hd
    have c1 := f.calls p
    have c2 := g.calls p
    have e1 : h2.set_ready_calls.count p = h1.set_ready_calls.count p := by omega
    have e2 : h3.set_ready_calls.count p = h2.set_ready_calls.count p := by omega
    have u1 := f.untouched p d m hd hm e1
    have u2 := g.untouched p m d' hm hd' e2
    exact ⟨fun x => u1.1 (u2.1 x), fun x => u1.2 (u2.2 x)⟩

theorem Follows.of_set {h : Heap} {p : Nat} {d d2 : Dependency} (extra : List Nat)
    (hd : h.deps[p]? = some d) (he : d2.erase_flags = d.erase_flags)
    (k1 : d._eos = true → d2._eos = true)
    (k2 : d._eos = true → d._ready = true → d2._ready = true)
    (k3 : d._eos = false → d2._eos = true → d2._ready = true)
    (k4 : p ∉ extra → (d2._ready = true → d._ready = true) ∧ (d2._eos = true → d._eos = true)) :
    Follows h { h with deps := h.deps.set p d2,
                       set_ready_calls := h.set_ready_calls ++ extra } := by
  have hlt : p < h.deps.length := (List.getElem?_eq_some.mp hd).1
  have look : ∀ (q : Nat) (a b : Dependency), h.deps[q]? = some a →
      (h.deps.set p d2)[q]? = some b → (q = p ∧ a = d ∧ b = d2) ∨ (q ≠ p ∧ a = b) := by
    intro q a b ha hb
    by_cases hq : q = p
    · subst hq
      rw [List.getElem?_set_self hlt] at hb
      rw [hd] at ha
      cases ha; cases hb
      exact Or.inl ⟨rfl, rfl, rfl⟩
    · rw [List.getElem?_set_ne (Ne.symm hq)] at hb
      rw [ha] at hb; cases hb
      exact Or.inr ⟨hq, rfl⟩
  refine ⟨rfl, ?_, ?_, ?_, ?_, ?_, ?_⟩
  · show (h.deps.set p d2).map Dependency.erase_flags = h.deps.map Dependency.erase_flags
    rw [List.map_set, he]
    apply List.ext_getElem?
    intro n
    by_cases hn : p = n
    · subst hn
      rw [List.getElem?_set_self (by simpa using hlt)]
      simp [List.getElem?_map, hd]
    · rw [List.getElem?_set_ne hn]
  · intro q
    show h.set_ready_calls.count q ≤ (h.set_ready_calls ++ extra).count q
    rw [List.count_append]
    exact Nat.le_add_right _ _
  · intro q a b ha hb hx
    rcases look q a b ha hb with ⟨_, rfl, rfl⟩ | ⟨_, rfl⟩
    · exact k1 hx
    · exact hx
  · intro q a b ha hb hx hy
    rcases look q a b ha hb with ⟨_, rfl, rfl⟩ | ⟨_, rfl⟩
    · exact k2 hx hy
    · exact hy
  · intro q a b ha hb hx hy
    rcases look q a b ha hb with ⟨_, rfl, rfl⟩ | ⟨_, rfl⟩
    · exact k3 hx hy
    · rw [hx] at hy; cases hy
  · intro q a b ha hb hc
    rcases look q a b ha hb with ⟨rfl, rfl, rfl⟩ | ⟨_, rfl⟩
    · apply k4
      have hc' : (h.set_ready_calls ++ extra).count q = h.set_ready_calls.count q := hc
      rw [List.count_append] at hc'
      have hz : extra.count q = 0 := by omega
      exact List.count_eq_zero.mp hz
    · exact ⟨id, id⟩

theorem set_ready_ok {h h' : Heap} {p : Nat} (hr : set_ready h p = Outcome.ok h') :
    ∃ d, h.deps[p]? = some d ∧
      h' = { h with deps := h.deps.set p { d with _ready := true },
                    set_ready_calls := h.set_ready_calls ++ [p] } := by
  unfold set_ready at hr
  cases hd : h.deps[p]? with
  | none => rw [hd] at hr; cases hr
  | some d =>
    rw [hd] at hr
    simp only [Outcome.ok.injEq] at hr
    exact ⟨d, rfl, hr.symm⟩

theorem set_ready_follows {h h' : Heap} {p : Nat} (hr : set_ready h p = Outcome.ok h') :
    Follows h h' := by
  obtain ⟨d, hd, rfl⟩ := set_ready_ok hr
  refine Follows.of_set [p] hd rfl (fun x => x) (fun _ _ => rfl) (fun _ _ => rfl) ?_
  intro hp
  exact absurd (List.mem_singleton.mpr rfl) hp

theorem block_follows {h h' : Heap} {p : Nat} (hr : block h p = Outcome.ok h') :
    Follows h h' := by
  unfold block at hr
  cases hd : h.deps[p]? with
  | none => rw [hd] at hr; cases hr
  | some d =>
    rw [hd] at hr
    by_cases he : d._eos = true
    · simp only [if_pos he] at hr
      cases hr
      exact Follows.refl h
    · simp only [if_neg he] at hr
      cases hr
      have := @Follows.of_set h p d { d with _ready := false } [] hd rfl
        (fun x => x) (fun x _ => absurd x he) (fun _ x => absurd x he)
        (fun _ => ⟨fun x => Bool.noConfusion x, fun x => x⟩)
      simpa [Heap.store] using this

theorem set_ready_to_read_follows {h h' : Heap} {p : Nat}
    (hr : set_ready_to_read h p = Outcome.ok h') : Follows h h' := by
  unfold set_ready_to_read at hr
  cases hd : h.deps[p]? with
  | none => rw [hd] at hr; cases hr
  | some d =>
    rw [hd] at hr
    simp only at hr
    split at hr
    · cases hr
    · split at hr
      · cases hr
      · split at hr
        · cases hr
        · split at hr
          · cases hr
          · exact set_ready_follows hr

theorem Heap.eos_marked_follows {h : Heap} {p : Nat} {d : Dependency}
    (hd : h.deps[p]? = some d) : Follows h (h.eos_marked p d) := by
  refine Follows.of_set [p] hd rfl (fun _ => rfl) (fun _ _ => rfl) (fun _ _ => rfl) ?_
  intro hp
  exact absurd (List.mem_singleton.mpr rfl) hp

theorem set_ready_store_eos {h : Heap} {p : Nat} {d : Dependency} (hd : h.deps[p]? = some d) :
    set_ready (h.store p { d with _eos := true }) p = Outcome.ok (h.eos_marked p d) := by
  have hlt : p < h.deps.length := (List.getElem?_eq_some.mp hd).1
  unfold set_ready
  simp only [Heap.store, List.getElem?_set_self hlt, List.set_set]
  rfl

/-- One unfolding of `set_eos()` on a live object. -/
theorem set_eos_fuel_succ {h : Heap} {p : Nat} {d : Dependency} (fuel : Nat)
    (hd : h.deps[p]? = some d) :
    set_eos_fuel (fuel + 1) h p =
      if d._eos then Outcome.ok h
      else if d._is_write_dependency then
        match d._shared_state with
        | none => Outcome.fault Fault.null_dereference
        | some ss =>
          match h.shared_states[ss]? with
          | none => Outcome.fault Fault.null_dereference
          | some st =>
            match st.source_dep with
            | none => Outcome.ok (h.eos_marked p d)
            | some src => set_eos_fuel fuel (h.eos_marked p d) src
      else Outcome.ok (h.eos_marked p d) := by
  rw [set_eos_fuel]
  simp only [hd, set_ready_store_eos hd]
  rfl

theorem set_eos_fuel_follows (fuel : Nat) :
    ∀ {h h' : Heap} {p : Nat}, set_eos_fuel fuel h p = Outcome.ok h' → Follows h h' := by
  induction fuel with
  | zero => intro h h' p hr; simp [set_eos_fuel] at hr
  | succ n ih =>
    intro h h' p hr
    cases hd : h.deps[p]? with
    | none => simp [set_eos_fuel, hd] at hr
    | some d =>
      rw [set_eos_fuel_succ n hd] at hr
      have base := Heap.eos_marked_follows hd
      split at hr
      · cases hr; exact Follows.refl h
      · split at hr
        · split at hr
          · cases hr
          · split at hr
            · cases hr
            · split at hr
              · cases hr; exact base
              · exact base.trans (ih hr)
        · cases hr; exact base

theorem perform_follows {h h' : Heap} {c : Call} (hr : perform h c = Outcome.ok h') :
    Follows h h' := by
  cases c with
  | set_ready p => exact set_ready_follows hr
  | block p => exact block_follows hr
  | set_eos p => exact set_eos_fuel_follows _ hr
  | set_ready_to_read p => exact set_ready_to_read_follows hr

theorem run_follows (cs : List Call) :
    ∀ {h h' : Heap}, run h cs = Outcome.ok h' → Follows h h' := by
  induction cs with
  | nil => intro h h' hr; simp only [run, Outcome.ok.injEq] at hr; subst hr; exact Follows.refl h
  | cons c rest ih =>
    intro h h' hr
    rw [run] at hr
    cases hp : perform h c with
    | fault f => rw [hp] at hr; cases hr
    | ok h1 =>
      rw [hp] at hr
      exact (perform_follows hp).trans (ih hr)

theorem erase_flags_kind {d d' : Dependency} (he : d'.erase_flags = d.erase_flags) :
    d'.kind = d.kind :=
  show d'.erase_flags.kind = d.erase_flags.kind from congrArg Dependency.kind he

theorem erase_flags_write {d d' : Dependency} (he : d'.erase_flags = d.erase_flags) :
    d'._is_write_dependency = d._is_write_dependency :=
  show d'.erase_flags._is_write_dependency = d.erase_flags._is_write_dependency from congrArg Dependency._is_write_dependency he

theorem erase_flags_shared_state {d d' : Dependency} (he : d'.erase_flags = d.erase_flags) :
    d'._shared_state = d._shared_state :=
  show d'.erase_flags._shared_state = d.erase_flags._shared_state from congrArg Dependency._shared_state he

theorem erase_flags_children {d d' : Dependency} (he : d'.erase_flags = d.erase_flags) :
    d'._children = d._children :=
  show d'.erase_flags._children = d.erase_flags._children from congrArg Dependency._children he

/-- A call of `set_eos()` on an object already at end of stream returns at once. -/
theorem set_eos_fuel_of_eos {h : Heap} {p : Nat} {d : Dependency} (fuel : Nat)
    (hd : h.deps[p]? = some d) (he : d._eos = true) :
    set_eos_fuel (fuel + 1) h p = Outcome.ok h := by
  rw [set_eos_fuel_succ fuel hd, if_pos he]

/-- After `set_eos()` returns, the receiver is at end of stream. -/
theorem set_eos_fuel_self (fuel : Nat) {h h' : Heap} {p : Nat}
    (hr : set_eos_fuel fuel h p = Outcome.ok h') :
    ∃ d', h'.deps[p]? = some d' ∧ d'._eos = true := by
  cases fuel with
  | zero => simp [set_eos_fuel] at hr
  | succ n =>
    cases hd : h.deps[p]? with
    | none => simp [set_eos_fuel, hd] at hr
    | some d =>
      have hlt : p < h.deps.length := (List.getElem?_eq_some.mp hd).1
      have hm : (h.eos_marked p d).deps[p]? = some { d with _ready := true, _eos := true } := by
        simp only [Heap.eos_marked]
        exact List.getElem?_set_self hlt
      have later : ∀ {q : Nat}, set_eos_fuel n (h.eos_marked p d) q = Outcome.ok h' →
          ∃ d', h'.deps[p]? = some d' ∧ d'._eos = true := by
        intro q hq
        have f := set_eos_fuel_follows n hq
        obtain ⟨d', hd', _⟩ := f.lookup hm
        exact ⟨d', hd', f.eos_kept p _ d' hm hd' rfl⟩
      rw [set_eos_fuel_succ n hd] at hr
      split at hr
      · cases hr; exact ⟨d, hd, by assumption⟩
      · split at hr
        · split at hr
          · cases hr
          · split at hr
            · cases hr
            · split at hr
              · cases hr; exact ⟨_, hm, rfl⟩
              · exact later hr
        · cases hr; exact ⟨_, hm, rfl⟩

theorem is_blocked_by_fuel_of_flag {h : Heap} {p : Nat} {d : Dependency} (fuel : Nat)
    (task : Option Nat) (hd : h.deps[p]? = some d)
    (hk : d.kind.ready_means_unblocked = true) (hf : d._ready = true ∨ d._eos = true) :
    is_blocked_by_fuel (fuel + 1) h p task = Outcome.ok none := by
  have hb : d.is_blocked_by p task = none := by
    unfold Dependency.is_blocked_by
    rcases hf with hf | hf <;> simp [hf]
  rw [is_blocked_by_fuel]
  simp only [hd]
  cases hkind : d.kind <;> simp only [hkind, DependencyKind.ready_means_unblocked] at hk ⊢ <;>
    first
      | rfl
      | exact congrArg Outcome.ok hb
      | cases hk

theorem is_blocked_by_fuel_inherited {h : Heap} {p : Nat} {d : Dependency} (fuel : Nat)
    (task : Option Nat) (hd : h.deps[p]? = some d)
    (hk : d.kind.inherits_is_blocked_by = true) :
    is_blocked_by_fuel (fuel + 1) h p task = Outcome.ok (d.is_blocked_by p task) := by
  rw [is_blocked_by_fuel]
  simp only [hd]
  cases hkind : d.kind <;> simp only [hkind, DependencyKind.inherits_is_blocked_by] at hk ⊢ <;>
    first
      | rfl
      | cases hk

theorem eos_of_lookup {h : Heap} {p : Nat} {d : Dependency} (hd : h.deps[p]? = some d) :
    eos h p = Outcome.ok d._eos := by
  simp [eos, hd]

/-- Monotonicity of `_ready` at every address, for the calls that never clear it. -/
theorem ready_kept_of_set {h : Heap} {p : Nat} {d d2 : Dependency} (log : List Nat)
    (hd : h.deps[p]? = some d) (hk : d._ready = true → d2._ready = true) :
    ∀ (q : Nat) (a b : Dependency), h.deps[q]? = some a →
      ({ h with deps := h.deps.set p d2, set_ready_calls := log } : Heap).deps[q]? = some b →
      a._ready = true → b._ready = true := by
  intro q a b ha hb hr
  have hlt : p < h.deps.length := (List.getElem?_eq_some.mp hd).1
  by_cases hq : q = p
  · subst hq
    have hb' : (h.deps.set q d2)[q]? = some b := hb
    rw [List.getElem?_set_self hlt] at hb'
    rw [hd] at ha
    cases ha; cases hb'
    exact hk hr
  · have hb' : (h.deps.set p d2)[q]? = some b := hb
    rw [List.getElem?_set_ne (Ne.symm hq)] at hb'
    rw [ha] at hb'; cases hb'
    exact hr

theorem set_ready_ready_kept {h h' : Heap} {p : Nat} (hr : set_ready h p = Outcome.ok h') :
    ∀ (q : Nat) (a b : Dependency), h.deps[q]? = some a → h'.deps[q]? = some b →
      a._ready = true → b._ready = true := by
  obtain ⟨d, hd, rfl⟩ := set_ready_ok hr
  exact ready_kept_of_set _ hd (fun _ => rfl)

theorem set_ready_sets {h h' : Heap} {p : Nat} (hr : set_ready h p = Outcome.ok h') :
    ∃ d', h'.deps[p]? = some d' ∧ d'._ready = true := by
  obtain ⟨d, hd, rfl⟩ := set_ready_ok hr
  have hlt : p < h.deps.length := (List.getElem?_eq_some.mp hd).1
  exact ⟨_, List.getElem?_set_self hlt, rfl⟩

theorem set_ready_to_read_ready_kept {h h' : Heap} {p : Nat}
    (hr : set_ready_to_read h p = Outcome.ok h') :
    ∀ (q : Nat) (a b : Dependency), h.deps[q]? = some a → h'.deps[q]? = some b →
      a._ready = true → b._ready = true := by
  unfold set_ready_to_read at hr
  cases hd : h.deps[p]? with
  | none => rw [hd] at hr; cases hr
  | some d =>
    rw [hd] at hr
    simp only at hr
    split at hr
    · cases hr
    · split at hr
      · cases hr
      · split at hr
        · cases hr
        · split at hr
          · cases hr
          · exact set_ready_ready_kept hr

theorem set_eos_fuel_ready_kept (fuel : Nat) :
    ∀ {h h' : Heap} {p : Nat}, set_eos_fuel fuel h p = Outcome.ok h' →
      ∀ (q : Nat) (a b : Dependency), h.deps[q]? = some a → h'.deps[q]? = some b →
        a._ready = true → b._ready = true := by
  induction fuel with
  | zero => intro h h' p hr; simp [set_eos_fuel] at hr
  | succ n ih =>
    intro h h' p hr q a b ha hb hra
    cases hd : h.deps[p]? with
    | none => simp [set_eos_fuel, hd] at hr
    | some d =>
      rw [set_eos_fuel_succ n hd] at hr
      have base : ∀ (q : Nat) (a b : Dependency), h.deps[q]? = some a →
          (h.eos_marked p d).deps[q]? = some b → a._ready = true → b._ready = true :=
        ready_kept_of_set _ hd (fun _ => rfl)
      split at hr
      · cases hr; rw [ha] at hb; cases hb; exact hra
      · split at hr
        · split at hr
          · cases hr
          · split at hr
            · cases hr
            · split at hr
              · cases hr; exact base q a b ha hb hra
              · obtain ⟨m, hm, _⟩ := (Heap.eos_marked_follows hd).lookup ha
                exact ih hr q m b hm hb (base q a m ha hm hra)
        · cases hr; exact base q a b ha hb hra

theorem block_other {h h' : Heap} {p q : Nat} (hr : block h p = Outcome.ok h') (hq : q ≠ p) :
    h'.deps[q]? = h.deps[q]? := by
  unfold block at hr
  cases hd : h.deps[p]? with
  | none => rw [hd] at hr; cases hr
  | some d =>
    rw [hd] at hr
    by_cases he : d._eos = true
    · simp only [if_pos he] at hr
      cases hr; rfl
    · simp only [if_neg he] at hr
      cases hr
      exact List.getElem?_set_ne (Ne.symm hq)

theorem perform_ready_kept {h h' : Heap} {c : Call} {q : Nat}
    (hr : perform h c = Outcome.ok h') (hc : c ≠ Call.block q) :
    ∀ (a b : Dependency), h.deps[q]? = some a → h'.deps[q]? = some b →
      a._ready = true → b._ready = true := by
  intro a b ha hb hra
  cases c with
  | set_ready p => exact set_ready_ready_kept hr q a b ha hb hra
  | block p =>
    have hne : q ≠ p := fun e => hc (by rw [e])
    have := block_other hr hne
    rw [this, ha] at hb
    cases hb; exact hra
  | set_eos p => exact set_eos_fuel_ready_kept _ hr q a b ha hb hra
  | set_ready_to_read p => exact set_ready_to_read_ready_kept hr q a b ha hb hra

theorem run_ready_kept (cs : List Call) {q : Nat} :
    ∀ {h h' : Heap}, run h cs = Outcome.ok h' → Call.block q ∉ cs →
      ∀ (a b : Dependency), h.deps[q]? = some a → h'.deps[q]? = some b →
        a._ready = true → b._ready = true := by
  induction cs with
  | nil =>
    intro h h' hr _ a b ha hb hra
    simp only [run, Outcome.ok.injEq] at hr
    subst hr
    rw [ha] at hb; cases hb; exact hra
  | cons c rest ih =>
    intro h h' hr hn a b ha hb hra
    rw [run] at hr
    cases hp : perform h c with
    | fault f => rw [hp] at hr; cases hr
    | ok h1 =>
      rw [hp] at hr
      have hc : c ≠ Call.block q := fun e => hn (by rw [e]; exact List.mem_cons_self _ _)
      have hrest : Call.block q ∉ rest := fun e => hn (List.mem_cons_of_mem _ e)
      obtain ⟨m, hm, _⟩ := (perform_follows hp).lookup ha
      exact ih hr hrest m b hm hb (perform_ready_kept hp hc a m ha hm hra)

theorem alloc_lookup (h : Heap) (d : Dependency) :
    (h.alloc d).2.deps[(h.alloc d).1]? = some d := by
  simp [Heap.alloc]

theorem Heap.no_eos_lookup {h : Heap} (hf : h.no_eos = true) {q : Nat} {d : Dependency}
    (hq : h.deps[q]? = some d) : d._eos = false := by
  have hm : d ∈ h.deps := List.mem_iff_getElem?.mpr ⟨q, hq⟩
  have := List.all_eq_true.mp hf d hm
  simpa using this

theorem Heap.eos_implies_ready_of {h : Heap}
    (k : ∀ (q : Nat) (d : Dependency), h.deps[q]? = some d → d._eos = true → d._ready = true) :
    h.eos_implies_ready = true := by
  apply List.all_eq_true.mpr
  intro d hm
  obtain ⟨q, hq⟩ := List.mem_iff_getElem?.mp hm
  cases he : d._eos with
  | false => rfl
  | true => simp [k q d hq he]

theorem AndDependency.is_blocked_by_none {call : Nat → Outcome (Option Nat)} :
    ∀ (cs : List Nat), (∀ c ∈ cs, call c = Outcome.ok none) →
      AndDependency.is_blocked_by call cs = Outcome.ok none := by
  intro cs
  induction cs with
  | nil => intro _; rfl
  | cons c rest ih =>
    intro hall
    rw [AndDependency.is_blocked_by, hall c (List.mem_cons_self _ _)]
    exact ih (fun c' hc' => hall c' (List.mem_cons_of_mem _ hc'))

theorem AndDependency.is_blocked_by_first {call : Nat → Outcome (Option Nat)} {c x : Nat}
    (post : List Nat) (hc : call c = Outcome.ok (some x)) :
    ∀ (pre : List Nat), (∀ c' ∈ pre, call c' = Outcome.ok none) →
      AndDependency.is_blocked_by call (pre ++ c :: post) = Outcome.ok (some x) := by
  intro pre
  induction pre with
  | nil => intro _; simp only [List.nil_append, AndDependency.is_blocked_by, hc]
  | cons p rest ih =>
    intro hall
    rw [List.cons_append, AndDependency.is_blocked_by, hall p (List.mem_cons_self _ _)]
    exact ih (fun c' hc' => hall c' (List.mem_cons_of_mem _ hc'))

theorem AndDependency.is_blocked_by_ok {call : Nat → Outcome (Option Nat)} :
    ∀ (cs : List Nat) (r : Option Nat), AndDependency.is_blocked_by call cs = Outcome.ok r →
      (r = none ∧ ∀ c ∈ cs, call c = Outcome.ok none) ∨
      (∃ x pre c post, r = some x ∧ cs = pre ++ c :: post ∧
        (∀ c' ∈ pre, call c' = Outcome.ok none) ∧ call c = Outcome.ok (some x)) := by
  intro cs
  induction cs with
  | nil =>
    intro r hr
    simp only [AndDependency.is_blocked_by, Outcome.ok.injEq] at hr
    exact Or.inl ⟨hr.symm, fun c hc => absurd hc (List.not_mem_nil c)⟩
  | cons c rest ih =>
    intro r hr
    rw [AndDependency.is_blocked_by] at hr
    cases hc : call c with
    | fault f => rw [hc] at hr; cases hr
    | ok v =>
      cases v with
      | some x =>
        rw [hc] at hr
        simp only [Outcome.ok.injEq] at hr
        exact Or.inr ⟨x, [], c, rest, hr.symm, rfl,
          fun c' hc' => absurd hc' (List.not_mem_nil c'), hc⟩
      | none =>
        rw [hc] at hr
        rcases ih r hr with ⟨hn, hall⟩ | ⟨x, pre, c2, post, hx, hsplit, hpre, hc2⟩
        · refine Or.inl ⟨hn, ?_⟩
          intro c' hc'
          rcases List.mem_cons.mp hc' with rfl | hm
          · exact hc
          · exact hall c' hm
        · refine Or.inr ⟨x, c :: pre, c2, post, hx, by rw [hsplit]; rfl, ?_, hc2⟩
          intro c' hc'
          rcases List.mem_cons.mp hc' with rfl | hm
          · exact hc
          · exact hpre c' hm

theorem AndDependency.is_blocked_by_mono {call call2 : Nat → Outcome (Option Nat)}
    (hm : ∀ c r, call c = Outcome.ok r → call2 c = Outcome.ok r) (cs : List Nat)
    (r : Option Nat) (hr : AndDependency.is_blocked_by call cs = Outcome.ok r) :
    AndDependency.is_blocked_by call2 cs = Outcome.ok r := by
  rcases AndDependency.is_blocked_by_ok cs r hr with
    ⟨rfl, hall⟩ | ⟨x, pre, c, post, rfl, rfl, hpre, hc⟩
  · exact AndDependency.is_blocked_by_none cs (fun c hc => hm c none (hall c hc))
  · exact AndDependency.is_blocked_by_first post (hm c (some x) hc) pre
      (fun c' hc' => hm c' none (hpre c' hc'))

/-- One unfolding of the virtual call on an `AndDependency`. -/
theorem is_blocked_by_fuel_and {h : Heap} {p : Nat} {d : Dependency} (fuel : Nat)
    (task : Option Nat) (hd : h.deps[p]? = some d)
    (hk : d.kind = DependencyKind.AndDependency) :
    is_blocked_by_fuel (fuel + 1) h p task =
      AndDependency.is_blocked_by (fun child => is_blocked_by_fuel fuel h child task)
        d._children := by
  rw [is_blocked_by_fuel]
  simp only [hd, hk]

theorem is_blocked_by_fuel_mono (fuel : Nat) :
    ∀ {h : Heap} {p : Nat} {task : Option Nat} {r : Option Nat},
      is_blocked_by_fuel fuel h p task = Outcome.ok r →
      is_blocked_by_fuel (fuel + 1) h p task = Outcome.ok r := by
  induction fuel with
  | zero => intro h p task r hr; simp [is_blocked_by_fuel] at hr
  | succ n ih =>
    intro h p task r hr
    cases hd : h.deps[p]? with
    | none => simp [is_blocked_by_fuel, hd] at hr
    | some d =>
      by_cases hk : d.kind = DependencyKind.AndDependency
      · rw [is_blocked_by_fuel_and n task hd hk] at hr
        rw [is_blocked_by_fuel_and (n + 1) task hd hk]
        exact AndDependency.is_blocked_by_mono (fun c r hc => ih hc) _ r hr
      · rw [is_blocked_by_fuel] at hr ⊢
        simp only [hd] at hr ⊢
        cases hkind : d.kind <;> simp only [hkind] at hr hk ⊢ <;>
          first
            | exact hr
            | exact absurd trivial hk

theorem is_blocked_by_fuel_mono_le {n m : Nat} (hnm : n ≤ m) {h : Heap} {p : Nat}
    {task : Option Nat} {r : Option Nat}
    (hr : is_blocked_by_fuel n h p task = Outcome.ok r) :
    is_blocked_by_fuel m h p task = Outcome.ok r := by
  induction hnm with
  | refl => exact hr
  | step _ ih => exact is_blocked_by_fuel_mono _ ih

theorem is_blocked_by_returns_unique {h : Heap} {p : Nat} {task : Option Nat}
    {r1 r2 : Option Nat} (k1 : is_blocked_by_returns h p task r1)
    (k2 : is_blocked_by_returns h p task r2) : r1 = r2 := by
  obtain ⟨n1, e1⟩ := k1
  obtain ⟨n2, e2⟩ := k2
  have a1 := is_blocked_by_fuel_mono_le (Nat.le_max_left n1 n2) e1
  have a2 := is_blocked_by_fuel_mono_le (Nat.le_max_right n1 n2) e2
  rw [a1] at a2
  cases a2; rfl

theorem wrap_int_range (x : Int) : -2147483648 ≤ wrap_int x ∧ wrap_int x < 2147483648 := by
  unfold wrap_int; omega

theorem wrap_int_of_range {x : Int} (h1 : -2147483648 ≤ x) (h2 : x < 2147483648) :
    wrap_int x = x := by
  unfold wrap_int; omega

theorem wrap_int_succ (x : Int) : wrap_int (wrap_int x + 1) = wrap_int (x + 1) := by
  unfold wrap_int; omega

theorem wrap_int_pred (x : Int) : wrap_int (wrap_int x - 1) = wrap_int (x - 1) := by
  unfold wrap_int; omega

theorem wrap_int_eq_one {m : Nat} (h1 : 1 ≤ m) (h2 : m ≤ 4294967296) :
    wrap_int (m : Int) = 1 ↔ m = 1 := by
  unfold wrap_int; omega

/-- After `n` increments the counter holds the wrapped sum; nothing else changes. -/
theorem LocalExchangeSharedState.add_times_eq (n : Nat) :
    ∀ (s : LocalExchangeSharedState),
      LocalExchangeSharedState.add_times (n + 1) s =
        { s with running_sink_operators := wrap_int (s.running_sink_operators + (n + 1 : Nat)) } := by
  induction n with
  | zero =>
    intro s
    simp [LocalExchangeSharedState.add_times,
      LocalExchangeSharedState.add_running_sink_operators]
  | succ n ih =>
    intro s
    rw [LocalExchangeSharedState.add_times, ih]
    simp only [LocalExchangeSharedState.add_running_sink_operators]
    have : wrap_int (wrap_int (s.running_sink_operators + 1) + ((n + 1 : Nat) : Int)) =
        wrap_int (s.running_sink_operators + ((n + 1 + 1 : Nat) : Int)) := by
      unfold wrap_int; push_cast; omega
    rw [this]

theorem LocalExchangeSharedState.sub_of_ne_one {s : LocalExchangeSharedState} (h : Heap)
    (hne : s.running_sink_operators ≠ 1) :
    s.sub_running_sink_operators h =
      Outcome.ok ({ s with running_sink_operators := wrap_int (s.running_sink_operators - 1) }, h) := by
  unfold LocalExchangeSharedState.sub_running_sink_operators
  simp only [if_neg hne]

theorem LocalExchangeSharedState.sub_of_one {s : LocalExchangeSharedState} (h : Heap)
    (he : s.running_sink_operators = 1) :
    s.sub_running_sink_operators h =
      match LocalExchangeSharedState._set_ready_for_read_loop s.source_dependencies h with
      | Outcome.fault f => Outcome.fault f
      | Outcome.ok h1 => Outcome.ok ({ s with running_sink_operators := 0 }, h1) := by
  unfold LocalExchangeSharedState.sub_running_sink_operators
  simp only [if_pos he, LocalExchangeSharedState._set_ready_for_read, he]
  rfl

/-- The broadcast loop on channels that are all bound to live objects: it returns, invokes
`set_ready()` once per channel in channel order, and sets `_ready` on exactly the bound
objects. -/
theorem LocalExchangeSharedState.set_ready_loop_ok :
    ∀ (cs : List (Option Nat)) (h : Heap),
      (∀ c ∈ cs, ∃ p, c = some p ∧ p < h.deps.length) →
      ∃ h', LocalExchangeSharedState._set_ready_for_read_loop cs h = Outcome.ok h' ∧
        h'.set_ready_calls = h.set_ready_calls ++ cs.filterMap id ∧
        h'.shared_states = h.shared_states ∧
        h'.deps.length = h.deps.length ∧
        (∀ q, h'.deps[q]? =
          if q ∈ cs.filterMap id then
            (h.deps[q]?).map (fun d => { d with _ready := true })
          else h.deps[q]?) := by
  intro cs
  induction cs with
  | nil =>
    intro h _
    exact ⟨h, rfl, by simp, rfl, rfl, fun q => by simp⟩
  | cons c rest ih =>
    intro h hall
    obtain ⟨p, rfl, hp⟩ := hall c (List.mem_cons_self _ _)
    obtain ⟨d, hd⟩ : ∃ d, h.deps[p]? = some d := ⟨h.deps[p], List.getElem?_eq_getElem hp⟩
    have hsr : set_ready h p = Outcome.ok
        { h with deps := h.deps.set p { d with _ready := true },
                 set_ready_calls := h.set_ready_calls ++ [p] } := by
      unfold set_ready
      simp only [hd]
    have hall' : ∀ c ∈ rest, ∃ q, c = some q ∧
        q < ({ h with deps := h.deps.set p { d with _ready := true },
                      set_ready_calls := h.set_ready_calls ++ [p] } : Heap).deps.length := by
      intro c hc
      obtain ⟨q, hq, hlt⟩ := hall c (List.mem_cons_of_mem _ hc)
      exact ⟨q, hq, by simpa using hlt⟩
    obtain ⟨h', hloop, hlog, hsh, hlen, hdeps⟩ := ih _ hall'
    refine ⟨h', ?_, ?_, ?_, ?_, ?_⟩
    · rw [LocalExchangeSharedState._set_ready_for_read_loop, hsr]
      exact hloop
    · rw [hlog]
      simp
    · rw [hsh]
    · rw [hlen]
      simp
    · intro q
      rw [hdeps q]
      simp only [List.filterMap_cons, id]
      by_cases hqp : q = p
      · subst hqp
        simp only [List.getElem?_set_self hp, List.mem_cons, true_or, if_true, hd,
          Option.map_some']
        split <;> rfl
      · simp only [List.getElem?_set_ne (Ne.symm hqp), List.mem_cons, hqp, false_or]

/-- While more than one sink operator is running, `sub_running_sink_operators()` only
decrements the counter. -/
theorem LocalExchangeSharedState.sub_times_quiet (k : Nat) :
    ∀ (m : Nat) (s : LocalExchangeSharedState) (h : Heap), k < m → m ≤ 4294967296 →
      s.running_sink_operators = wrap_int (m : Int) →
      LocalExchangeSharedState.sub_times k s h =
        Outcome.ok ({ s with running_sink_operators := wrap_int ((m : Int) - (k : Int)) }, h) := by
  induction k with
  | zero =>
    intro m s h _ _ hc
    simp only [LocalExchangeSharedState.sub_times, Nat.cast_zero, sub_zero, ← hc]
  | succ k ih =>
    intro m s h hk hm hc
    have hne : s.running_sink_operators ≠ 1 := by
      rw [hc]
      intro e
      have := (wrap_int_eq_one (by omega) hm).mp e
      omega
    rw [LocalExchangeSharedState.sub_times, LocalExchangeSharedState.sub_of_ne_one h hne]
    simp only
    have hc' : ({ s with running_sink_operators := wrap_int (s.running_sink_operators - 1) } :
        LocalExchangeSharedState).running_sink_operators = wrap_int ((m - 1 : Nat) : Int) := by
      show wrap_int (s.running_sink_operators - 1) = wrap_int ((m - 1 : Nat) : Int)
      rw [hc, wrap_int_pred]
      congr 1
      omega
    rw [ih (m - 1) _ h (by omega) (by omega) hc']
    have : ((m - 1 : Nat) : Int) - (k : Int) = (m : Int) - ((k + 1 : Nat) : Int) := by
      push_cast; omega
    rw [this]

/-- The call that finds the counter at one runs the broadcast. -/
theorem LocalExchangeSharedState.sub_times_last (m : Nat) :
    ∀ (s : LocalExchangeSharedState) (h : Heap), m + 1 ≤ 4294967296 →
      s.running_sink_operators = wrap_int ((m + 1 : Nat) : Int) →
      LocalExchangeSharedState.sub_times (m + 1) s h =
        match LocalExchangeSharedState._set_ready_for_read_loop s.source_dependencies h with
        | Outcome.fault f => Outcome.fault f
        | Outcome.ok h1 => Outcome.ok ({ s with running_sink_operators := 0 }, h1) := by
  induction m with
  | zero =>
    intro s h _ hc
    have he : s.running_sink_operators = 1 := by rw [hc]; rfl
    rw [LocalExchangeSharedState.sub_times, LocalExchangeSharedState.sub_of_one h he]
    cases LocalExchangeSharedState._set_ready_for_read_loop s.source_dependencies h with
    | fault f => rfl
    | ok h1 => rfl
  | succ m ih =>
    intro s h hm hc
    have hne : s.running_sink_operators ≠ 1 := by
      rw [hc]
      intro e
      have := (wrap_int_eq_one (by omega) hm).mp e
      omega
    rw [LocalExchangeSharedState.sub_times, LocalExchangeSharedState.sub_of_ne_one h hne]
    simp only
    have hc' : ({ s with running_sink_operators := wrap_int (s.running_sink_operators - 1) } :
        LocalExchangeSharedState).running_sink_operators = wrap_int ((m + 1 : Nat) : Int) := by
      show wrap_int (s.running_sink_operators - 1) = wrap_int ((m + 1 : Nat) : Int)
      rw [hc, wrap_int_pred]
      congr 1
      push_cast; omega
    rw [ih _ h (by omega) hc']

theorem is_blocked_valid {h : Heap} {p : Nat} (hb : is_blocked h p = true) :
    p < h.deps.length := by
  by_contra hlt
  have hnone : h.deps[p]? = none := List.getElem?_eq_none (by omega)
  unfold is_blocked is_blocked_by at hb
  rw [is_blocked_by_fuel] at hb
  simp [hnone] at hb

theorem LocalExchangeSharedState.all_blocked_bound {s : LocalExchangeSharedState} {h : Heap}
    (hb : s.all_blocked h = true) :
    ∀ c ∈ s.source_dependencies, ∃ p, c = some p ∧ p < h.deps.length := by
  intro c hc
  have := List.all_eq_true.mp hb c hc
  cases c with
  | none => simp at this
  | some p => exact ⟨p, rfl, is_blocked_valid this⟩

theorem countP_set_drop {α : Type} (f : α → Bool) :
    ∀ (l : List α) (p : Nat) (a b : α), l[p]? = some a → f a = true → f b = false →
      (l.set p b).countP f + 1 = l.countP f := by
  intro l
  induction l with
  | nil => intro p a b hp; simp at hp
  | cons x rest ih =>
    intro p a b hp ha hb
    cases p with
    | zero =>
      simp only [List.getElem?_cons_zero, Option.some.injEq] at hp
      subst hp
      simp [List.set, List.countP_cons, ha, hb]
    | succ p =>
      simp only [List.getElem?_cons_succ] at hp
      have := ih p a b hp ha hb
      simp only [List.set, List.countP_cons]
      omega

/-- Marking one more dependency leaves one fewer pending. -/
theorem Heap.pending_eos_marked {h : Heap} {p : Nat} {d : Dependency}
    (hd : h.deps[p]? = some d) (he : d._eos = false) :
    (h.eos_marked p d).pending + 1 = h.pending := by
  unfold Heap.pending Heap.eos_marked
  exact countP_set_drop _ h.deps p d _ hd (by simp [he]) (by simp)

/-- A budget above the number of pending dependencies is never exhausted by `set_eos()`. -/
theorem set_eos_fuel_enough (fuel : Nat) :
    ∀ (h : Heap) (p : Nat), h.pending < fuel →
      set_eos_fuel fuel h p ≠ Outcome.fault Fault.out_of_fuel := by
  induction fuel with
  | zero => intro h p hlt; omega
  | succ n ih =>
    intro h p hlt
    cases hd : h.deps[p]? with
    | none => simp [set_eos_fuel, hd]
    | some d =>
      rw [set_eos_fuel_succ n hd]
      by_cases he : d._eos = true
      · simp [he]
      · have he' : d._eos = false := by simpa using he
        have hp := Heap.pending_eos_marked hd he'
        rw [if_neg he]
        split
        · split
          · simp
          · split
            · simp
            · split
              · simp
              · exact ih _ _ (by omega)
        · simp

/-- The budget `set_eos` gives itself is never exhausted: the recursion of `set_eos()` ends on
every heap. -/
theorem set_eos_never_exhausts (h : Heap) (p : Nat) :
    set_eos h p ≠ Outcome.fault Fault.out_of_fuel := by
  apply set_eos_fuel_enough
  have : h.pending ≤ h.deps.length := List.countP_le_length _
  omega

/-- The two outcomes of `block()` on a live object. -/
theorem block_ok {h : Heap} {p : Nat} {d : Dependency} (hd : h.deps[p]? = some d) :
    block h p = Outcome.ok (if d._eos = true then h else h.store p { d with _ready := false }) := by
  unfold block
  simp only [hd]
  split <;> rfl

theorem channel_in_range {s : LocalExchangeSharedState} {c : Nat}
    (hc : c < s.source_dependencies.length) :
    ¬ ((c : Int) < 0 ∨ (s.source_dependencies.length : Int) ≤ (c : Int)) := by
  omega

theorem Heap.paired_lookup {h : Heap} (hw : h.write_deps_paired = true) {p : Nat}
    {d : Dependency} (hd : h.deps[p]? = some d) :
    d.paired_in h.shared_states h.deps.length = true :=
  List.all_eq_true.mp hw d (List.mem_iff_getElem?.mpr ⟨p, hd⟩)

theorem Heap.paired_eos_marked {h : Heap} {p : Nat} {d : Dependency}
    (hw : h.write_deps_paired = true) (hd : h.deps[p]? = some d) :
    (h.eos_marked p d).write_deps_paired = true := by
  apply List.all_eq_true.mpr
  intro x hx
  have hlen : (h.eos_marked p d).deps.length = h.deps.length := List.length_set _ _ _
  rw [hlen]
  show x.paired_in h.shared_states h.deps.length = true
  rcases List.mem_or_eq_of_mem_set hx with hm | rfl
  · exact List.all_eq_true.mp hw x hm
  · exact (Heap.paired_lookup hw hd : d.paired_in h.shared_states h.deps.length = true)

/-- On a heap whose write dependencies all have a shared state attached, `set_eos()` returns
on every live dependency, the budget being above the number of pending dependencies. -/
theorem set_eos_fuel_returns (fuel : Nat) :
    ∀ (h : Heap) (p : Nat) (d : Dependency), h.pending < fuel →
      h.write_deps_paired = true → h.deps[p]? = some d →
      ∃ h', set_eos_fuel fuel h p = Outcome.ok h' := by
  induction fuel with
  | zero => intro h p d hlt; omega
  | succ n ih =>
    intro h p d hlt hw hd
    rw [set_eos_fuel_succ n hd]
    by_cases he : d._eos = true
    · exact ⟨h, by rw [if_pos he]⟩
    · rw [if_neg he]
      have he' : d._eos = false := by simpa using he
      have hpend := Heap.pending_eos_marked hd he'
      have hpair := Heap.paired_lookup hw hd
      by_cases hwr : d._is_write_dependency = true
      · rw [if_pos hwr]
        unfold Dependency.paired_in at hpair
        simp only [hwr, Bool.not_true, Bool.false_or] at hpair
        cases hss : d._shared_state with
        | none => simp [hss] at hpair
        | some ss =>
          simp only [hss] at hpair ⊢
          cases hst : h.shared_states[ss]? with
          | none => simp [hst] at hpair
          | some st =>
            simp only [hst] at hpair ⊢
            cases hsrc : st.source_dep with
            | none => exact ⟨_, rfl⟩
            | some src =>
              simp only [hsrc, decide_eq_true_eq] at hpair ⊢
              obtain ⟨s1, hs1, _⟩ := (Heap.eos_marked_follows hd).lookup
                (List.getElem?_eq_getElem hpair)
              exact ih _ src s1 (by omega) (Heap.paired_eos_marked hw hd) hs1
      · rw [if_neg hwr]
        exact ⟨_, rfl⟩

/-- The virtual call on a `RuntimeFilterDependency`. -/
theorem is_blocked_by_fuel_rf {h : Heap} {p : Nat} {d : Dependency} {filters : Int}
    {flag : Option Bool} (fuel : Nat) (task : Option Nat) (hd : h.deps[p]? = some d)
    (hk : d.kind = DependencyKind.RuntimeFilterDependency filters flag) :
    is_blocked_by_fuel (fuel + 1) h p task =
      Outcome.ok (RuntimeFilterDependency.is_blocked_by filters flag p task) := by
  rw [is_blocked_by_fuel]
  simp only [hd, hk]

/-- After a sequence of `add_filters` / `sub_filters` calls the count is the balance of the
calls; nothing else of the object changes. -/
theorem filter_calls_count (cs : List FilterCall) :
    ∀ (h : Heap) (p : Nat) (d : Dependency) (f : Int) (flag : Option Bool),
      h.deps[p]? = some d → d.kind = DependencyKind.RuntimeFilterDependency f flag →
      ∃ h', filter_calls h p cs = Outcome.ok h' ∧
        h'.deps.length = h.deps.length ∧
        h'.deps[p]? = some (d.with_filters
          (f + (cs.count FilterCall.add_filters : Int)
            - (cs.count FilterCall.sub_filters : Int)) flag) := by
  induction cs with
  | nil =>
    intro h p d f flag hd hk
    refine ⟨h, rfl, rfl, ?_⟩
    simp only [List.count_nil, Nat.cast_zero, add_zero, sub_zero,
      Dependency.with_filters, ← hk]
    exact hd
  | cons c rest ih =>
    intro h p d f flag hd hk
    have hlt : p < h.deps.length := (List.getElem?_eq_some.mp hd).1
    cases c with
    | add_filters =>
      have hstep : add_filters h p = Outcome.ok (h.store p (d.with_filters (f + 1) flag)) := by
        unfold add_filters
        simp only [hd, hk]
        rfl
      have hl : (h.store p (d.with_filters (f + 1) flag)).deps[p]? =
          some (d.with_filters (f + 1) flag) := List.getElem?_set_self hlt
      obtain ⟨h', hr, hlen, hres⟩ := ih _ p _ (f + 1) flag hl rfl
      refine ⟨h', ?_, ?_, ?_⟩
      · rw [filter_calls, hstep]; exact hr
      · rw [hlen]; exact List.length_set _ _ _
      · rw [hres]
        have e : f + 1 + (rest.count FilterCall.add_filters : Int)
            - (rest.count FilterCall.sub_filters : Int) =
            f + ((FilterCall.add_filters :: rest).count FilterCall.add_filters : Int)
              - ((FilterCall.add_filters :: rest).count FilterCall.sub_filters : Int) := by
          simp only [List.count_cons_self,
            List.count_cons_of_ne (by decide : FilterCall.sub_filters ≠ FilterCall.add_filters)]
          push_cast
          omega
        rw [e]
        rfl
    | sub_filters =>
      have hstep : sub_filters h p = Outcome.ok (h.store p (d.with_filters (f - 1) flag)) := by
        unfold sub_filters
        simp only [hd, hk]
        rfl
      have hl : (h.store p (d.with_filters (f - 1) flag)).deps[p]? =
          some (d.with_filters (f - 1) flag) := List.getElem?_set_self hlt
      obtain ⟨h', hr, hlen, hres⟩ := ih _ p _ (f - 1) flag hl rfl
      refine ⟨h', ?_, ?_, ?_⟩
      · rw [filter_calls, hstep]; exact hr
      · rw [hlen]; exact List.length_set _ _ _
      · rw [hres]
        have e : f - 1 + (rest.count FilterCall.add_filters : Int)
            - (rest.count FilterCall.sub_filters : Int) =
            f + ((FilterCall.sub_filters :: rest).count FilterCall.add_filters : Int)
              - ((FilterCall.sub_filters :: rest).count FilterCall.sub_filters : Int) := by
          simp only [List.count_cons_self,
            List.count_cons_of_ne (by decide : FilterCall.add_filters ≠ FilterCall.sub_filters)]
          push_cast
          omega
        rw [e]
        rfl

/-- A timer that has latched one of its flags ignores every later call. -/
theorem timer_calls_latched (cs : List TimerCall) :
    ∀ (t : RuntimeFilterTimer) (h : Heap), (t._call_ready || t._call_timeout) = true →
      timer_calls t h cs = Outcome.ok (t, h) := by
  induction cs with
  | nil => intro t h _; rfl
  | cons c rest ih =>
    intro t h hl
    have hstep : t.perform h c = Outcome.ok (t, h) := by
      cases c <;>
        simp only [RuntimeFilterTimer.perform, RuntimeFilterTimer.call_ready,
          RuntimeFilterTimer.call_timeout, hl, if_true]
    rw [timer_calls, hstep]
    exact ih t h hl

theorem sub_filters_ok {h : Heap} {p : Nat} {d : Dependency} {f : Int} {flag : Option Bool}
    (hd : h.deps[p]? = some d) (hk : d.kind = DependencyKind.RuntimeFilterDependency f flag) :
    sub_filters h p = Outcome.ok (h.store p (d.with_filters (f - 1) flag)) := by
  unfold sub_filters
  simp only [hd, hk]
  rfl

/-- One more unit of budget than the number of pending dependencies changes nothing. -/
theorem set_eos_fuel_stable (fuel : Nat) :
    ∀ (h : Heap) (p : Nat), h.pending < fuel →
      set_eos_fuel (fuel + 1) h p = set_eos_fuel fuel h p := by
  induction fuel with
  | zero => intro h p hlt; omega
  | succ n ih =>
    intro h p hlt
    cases hd : h.deps[p]? with
    | none => simp [set_eos_fuel, hd]
    | some d =>
      rw [set_eos_fuel_succ (n + 1) hd, set_eos_fuel_succ n hd]
      by_cases he : d._eos = true
      · rw [if_pos he, if_pos he]
      · have he' : d._eos = false := by simpa using he
        have hpend := Heap.pending_eos_marked hd he'
        rw [if_neg he, if_neg he]
        split
        · split
          · rfl
          · split
            · rfl
            · split
              · rfl
              · exact ih _ _ (by omega)
        · rfl

theorem set_eos_fuel_stable_le {n m : Nat} (hnm : n ≤ m) (h : Heap) (p : Nat)
    (hlt : h.pending < n) : set_eos_fuel m h p = set_eos_fuel n h p := by
  induction hnm with
  | refl => rfl
  | step hle ih =>
    rw [set_eos_fuel_stable _ h p (Nat.lt_of_lt_of_le hlt hle)]
    exact ih

theorem count_append_singleton (l : List Nat) (p q : Nat) :
    (l ++ [p]).count q = l.count q + (if p = q then 1 else 0) := by
  rw [List.count_append]
  by_cases hpq : p = q
  · subst hpq; simp
  · simp [hpq, List.count_cons_of_ne (Ne.symm hpq)]

/-- A returning `set_eos()` invokes `set_ready()` at most once on each dependency, and not at
all on a dependency that was already at end of stream. -/
theorem set_eos_fuel_calls_once (fuel : Nat) :
    ∀ {h h' : Heap} {p : Nat}, set_eos_fuel fuel h p = Outcome.ok h' →
      ∀ q, h'.set_ready_calls.count q ≤ h.set_ready_calls.count q + 1 ∧
        (∀ d, h.deps[q]? = some d → d._eos = true →
          h'.set_ready_calls.count q = h.set_ready_calls.count q) := by
  induction fuel with
  | zero => intro h h' p hr; simp [set_eos_fuel] at hr
  | succ n ih =>
    intro h h' p hr q
    cases hd : h.deps[p]? with
    | none => simp [set_eos_fuel, hd] at hr
    | some d =>
      have hlt : p < h.deps.length := (List.getElem?_eq_some.mp hd).1
      rw [set_eos_fuel_succ n hd] at hr
      by_cases he : d._eos = true
      · rw [if_pos he] at hr
        cases hr
        exact ⟨Nat.le_succ _, fun _ _ _ => rfl⟩
      · rw [if_neg he] at hr
        have hcount : (h.eos_marked p d).set_ready_calls.count q =
            h.set_ready_calls.count q + (if p = q then 1 else 0) :=
          count_append_singleton _ p q
        have base : (h.eos_marked p d).set_ready_calls.count q ≤ h.set_ready_calls.count q + 1 ∧
            (∀ d0, h.deps[q]? = some d0 → d0._eos = true →
              (h.eos_marked p d).set_ready_calls.count q = h.set_ready_calls.count q) := by
          rw [hcount]
          refine ⟨by split <;> omega, ?_⟩
          intro d0 hq hq0
          by_cases hpq : p = q
          · subst hpq
            rw [hd] at hq
            cases hq
            exact absurd hq0 he
          · simp [hpq]
        have later : ∀ {src : Nat}, set_eos_fuel n (h.eos_marked p d) src = Outcome.ok h' →
            h'.set_ready_calls.count q ≤ h.set_ready_calls.count q + 1 ∧
            (∀ d0, h.deps[q]? = some d0 → d0._eos = true →
              h'.set_ready_calls.count q = h.set_ready_calls.count q) := by
          intro src hsrc
          have k := ih hsrc q
          by_cases hpq : p = q
          · subst hpq
            have hm : (h.eos_marked p d).deps[p]? =
                some { d with _ready := true, _eos := true } := List.getElem?_set_self hlt
            have e := k.2 _ hm rfl
            rw [e, hcount]
            refine ⟨by simp, ?_⟩
            intro d0 hq hq0
            rw [hd] at hq
            cases hq
            exact absurd hq0 he
          · have hcq : (h.eos_marked p d).set_ready_calls.count q =
                h.set_ready_calls.count q := by rw [hcount]; simp [hpq]
            have hlook : (h.eos_marked p d).deps[q]? = h.deps[q]? :=
              List.getElem?_set_ne hpq
            refine ⟨by rw [← hcq]; exact k.1, ?_⟩
            intro d0 hq hq0
            rw [← hcq]
            exact k.2 d0 (by rw [hlook]; exact hq) hq0
        split at hr
        · split at hr
          · cases hr
          · split at hr
            · cases hr
            · split at hr
              · cases hr; exact base
              · exact later hr
        · cases hr; exact base

theorem slow_threshold_value : SLOW_DEPENDENCY_THRESHOLD = 60000000000 := by
  decide

theorem log_unit_value : TIME_UNIT_DEPENDENCY_LOG = 30000000000 := by
  decide

theorem should_log_below {d : Dependency} {t : Nat} (ht : t < SLOW_DEPENDENCY_THRESHOLD) :
    d._should_log t = (false, d) := by
  unfold Dependency._should_log
  rw [if_pos ht]

theorem should_log_false {d : Dependency} {t : Nat} (hr : (d._should_log t).1 = false) :
    (d._should_log t).2 = d := by
  unfold Dependency._should_log at hr ⊢
  split
  · rfl
  · split
    · rfl
    · rename_i h1 h2
      rw [if_neg h1, if_neg h2] at hr
      cases hr

theorem should_log_true {d : Dependency} {t : Nat} (hr : (d._should_log t).1 = true) :
    SLOW_DEPENDENCY_THRESHOLD ≤ t ∧
    (d._should_log t).2._last_log_time = t ∧
    (d._last_log_time ≤ t → t < 18446744073709551616 →
      d._last_log_time + TIME_UNIT_DEPENDENCY_LOG ≤ t) := by
  unfold Dependency._should_log at hr ⊢
  by_cases h1 : t < SLOW_DEPENDENCY_THRESHOLD
  · rw [if_pos h1] at hr; cases hr
  · by_cases h2 : (t + 18446744073709551616 - d._last_log_time) % 18446744073709551616
        < TIME_UNIT_DEPENDENCY_LOG
    · rw [if_neg h1, if_pos h2] at hr; cases hr
    · rw [if_neg h1, if_neg h2]
      refine ⟨by omega, rfl, ?_⟩
      intro hl ht
      rw [log_unit_value] at h2 ⊢
      omega

theorem should_log_fires {d : Dependency} {t : Nat} (h1 : SLOW_DEPENDENCY_THRESHOLD ≤ t)
    (hl : d._last_log_time + TIME_UNIT_DEPENDENCY_LOG ≤ t) (ht : t < 18446744073709551616) :
    (d._should_log t).1 = true := by
  unfold Dependency._should_log
  have n1 : ¬ t < SLOW_DEPENDENCY_THRESHOLD := by omega
  have n2 : ¬ (t + 18446744073709551616 - d._last_log_time) % 18446744073709551616
      < TIME_UNIT_DEPENDENCY_LOG := by
    rw [log_unit_value] at hl ⊢
    omega
  rw [if_neg n1, if_neg n2]

theorem should_log_last_le {d : Dependency} {t : Nat} (hl : d._last_log_time ≤ t) :
    d._last_log_time ≤ (d._should_log t).2._last_log_time ∧
    (d._should_log t).2._last_log_time ≤ t := by
  cases hr : (d._should_log t).1 with
  | false => rw [should_log_false hr]; exact ⟨le_rfl, hl⟩
  | true => rw [(should_log_true hr).2.1]; exact ⟨hl, le_rfl⟩

theorem should_log_times_length (ts : List Nat) :
    ∀ (d : Dependency), (d._should_log_times ts).1.length = ts.length := by
  induction ts with
  | nil => intro d; rfl
  | cons t rest ih =>
    intro d
    simp only [Dependency._should_log_times, List.length_cons, ih]

/-- No call with an elapsed time below the threshold answers true. -/
theorem should_log_times_below (ts : List Nat) :
    ∀ (d : Dependency) (i t : Nat), ts[i]? = some t → t < SLOW_DEPENDENCY_THRESHOLD →
      (d._should_log_times ts).1[i]? = some false := by
  induction ts with
  | nil => intro d i t hi; simp at hi
  | cons t0 rest ih =>
    intro d i t hi ht
    cases i with
    | zero =>
      simp only [List.getElem?_cons_zero, Option.some.injEq] at hi
      subst hi
      simp only [Dependency._should_log_times, List.getElem?_cons_zero, should_log_below ht]
    | succ i =>
      simp only [List.getElem?_cons_succ] at hi
      simp only [Dependency._should_log_times, List.getElem?_cons_succ]
      exact ih _ i t hi ht

/-- The first call with an elapsed time at or above the threshold answers true, when the last
log time is far enough below the threshold (as the initial 0 is). -/
theorem should_log_times_first (ts : List Nat) :
    ∀ (d : Dependency) (i t : Nat),
      d._last_log_time + TIME_UNIT_DEPENDENCY_LOG ≤ SLOW_DEPENDENCY_THRESHOLD →
      ts[i]? = some t → SLOW_DEPENDENCY_THRESHOLD ≤ t → t < 18446744073709551616 →
      (∀ j t', j < i → ts[j]? = some t' → t' < SLOW_DEPENDENCY_THRESHOLD) →
      (d._should_log_times ts).1[i]? = some true := by
  induction ts with
  | nil => intro d i t _ hi; simp at hi
  | cons t0 rest ih =>
    intro d i t hd hi ht hmax hbefore
    cases i with
    | zero =>
      simp only [List.getElem?_cons_zero, Option.some.injEq] at hi
      subst hi
      have hf : (d._should_log t0).1 = true := should_log_fires ht (by omega) hmax
      simp only [Dependency._should_log_times, List.getElem?_cons_zero, hf]
    | succ i =>
      simp only [List.getElem?_cons_succ] at hi
      have h0 : t0 < SLOW_DEPENDENCY_THRESHOLD :=
        hbefore 0 t0 (Nat.succ_pos i) (List.getElem?_cons_zero)
      simp only [Dependency._should_log_times, List.getElem?_cons_succ, should_log_below h0]
      exact ih d i t hd hi ht hmax
        (fun j t' hj hjt => hbefore (j + 1) t' (Nat.succ_lt_succ hj)
          (by rw [List.getElem?_cons_succ]; exact hjt))

/-- On non-decreasing elapsed times not below the last log time, a call that answers true is
at least one log unit after the last log time, and any two calls that answer true are at
least one log unit apart. -/
theorem should_log_times_apart (ts : List Nat) :
    ∀ (d : Dependency), ts.Pairwise (· ≤ ·) →
      (∀ t ∈ ts, d._last_log_time ≤ t ∧ t < 18446744073709551616) →
      (∀ (j tj : Nat), ts[j]? = some tj → (d._should_log_times ts).1[j]? = some true →
        d._last_log_time + TIME_UNIT_DEPENDENCY_LOG ≤ tj) ∧
      (∀ (i j ti tj : Nat), i < j → ts[i]? = some ti → ts[j]? = some tj →
        (d._should_log_times ts).1[i]? = some true →
        (d._should_log_times ts).1[j]? = some true →
        ti + TIME_UNIT_DEPENDENCY_LOG ≤ tj) := by
  induction ts with
  | nil =>
    intro d _ _
    exact ⟨fun j tj hj => by simp at hj, fun i j ti tj _ hi => by simp at hi⟩
  | cons t0 rest ih =>
    intro d hs hr
    have hs' := List.pairwise_cons.mp hs
    have h0 := hr t0 (List.mem_cons_self _ _)
    have hlast := should_log_last_le h0.1
    have hrest : ∀ t ∈ rest, (d._should_log t0).2._last_log_time ≤ t ∧
        t < 18446744073709551616 := by
      intro t ht
      have := hr t (List.mem_cons_of_mem _ ht)
      have := hs'.1 t ht
      omega
    obtain ⟨ia, ib⟩ := ih (d._should_log t0).2 hs'.2 hrest
    constructor
    · intro j tj hj hres
      cases j with
      | zero =>
        simp only [List.getElem?_cons_zero, Option.some.injEq] at hj
        subst hj
        simp only [Dependency._should_log_times, List.getElem?_cons_zero,
          Option.some.injEq] at hres
        exact (should_log_true hres).2.2 h0.1 h0.2
      | succ j =>
        simp only [List.getElem?_cons_succ] at hj
        simp only [Dependency._should_log_times, List.getElem?_cons_succ] at hres
        have := ia j tj hj hres
        omega
    · intro i j ti tj hij hi hj hri hrj
      cases j with
      | zero => omega
      | succ j =>
        simp only [List.getElem?_cons_succ] at hj
        simp only [Dependency._should_log_times, List.getElem?_cons_succ] at hrj
        cases i with
        | zero =>
          simp only [List.getElem?_cons_zero, Option.some.injEq] at hi
          subst hi
          simp only [Dependency._should_log_times, List.getElem?_cons_zero,
            Option.some.injEq] at hri
          have := ia j tj hj hrj
          rw [(should_log_true hri).2.1] at this
          exact this
        | succ i =>
          simp only [List.getElem?_cons_succ] at hi
          simp only [Dependency._should_log_times, List.getElem?_cons_succ] at hri
          exact ib i j ti tj (by omega) hi hj hri hrj

/-- The single-column branch of `hash_table_init`. -/
theorem SetSharedState.hash_table_init_single
    (f : HashTableVariants → List VExprContext → Bool × HashTableVariants)
    {s : SetSharedState} {key : VExprContext} {rest : List (List VExprContext)}
    {bs : List Bool} {v0 : HashTableVariants}
    (hchild : s.child_exprs_lists = [key] :: rest)
    (hnull : s.build_not_ignore_null = false :: bs)
    (hvar : s.hash_table_variants = some v0) :
    s.hash_table_init f =
      Outcome.ok (s.emplace (SetSharedState.single_column_variant key.result_type)) := by
  unfold SetSharedState.hash_table_init
  simp only [hchild, SetSharedState.single_column, hnull, hvar, List.length_singleton,
    if_true, Bool.not_false]

/-- The first branch condition of `hash_table_init` reads only the first list and
`build_not_ignore_null`. -/
theorem SetSharedState.hash_table_init_children
    (f : HashTableVariants → List VExprContext → Bool × HashTableVariants)
    (s : SetSharedState) (first : List VExprContext) (rest1 rest2 : List (List VExprContext)) :
    ((s.with_children (first :: rest1)).hash_table_init f).map
        SetSharedState.hash_table_variants =
      ((s.with_children (first :: rest2)).hash_table_init f).map
        SetSharedState.hash_table_variants := by
  cases hv : s.hash_table_variants with
  | none =>
    by_cases hlen : first.length = 1
    · cases hn : s.build_not_ignore_null with
      | nil =>
        simp [SetSharedState.hash_table_init, SetSharedState.with_children,
          SetSharedState.single_column, hlen, hn, Outcome.map]
      | cons b bs =>
        cases b <;> cases first <;>
          simp [SetSharedState.hash_table_init, SetSharedState.with_children,
            SetSharedState.single_column, hlen, hn, hv, Outcome.map]
    · simp [SetSharedState.hash_table_init, SetSharedState.with_children,
        SetSharedState.single_column, hlen, hv, Outcome.map]
  | some v =>
    by_cases hlen : first.length = 1
    · cases hn : s.build_not_ignore_null with
      | nil =>
        simp [SetSharedState.hash_table_init, SetSharedState.with_children,
          SetSharedState.single_column, hlen, hn, Outcome.map]
      | cons b bs =>
        cases first with
        | nil => simp at hlen
        | cons key more =>
          cases b <;> cases hf : (f v (key :: more)).1 <;>
            simp [SetSharedState.hash_table_init, SetSharedState.with_children,
              SetSharedState.single_column, hlen, hn, hv, hf, Outcome.map,
              SetSharedState.emplace]
    · cases hf : (f v first).1 <;>
        simp [SetSharedState.hash_table_init, SetSharedState.with_children,
          SetSharedState.single_column, hlen, hv, hf, Outcome.map, SetSharedState.emplace]

/-! ## The claims -/

/-- C1 (as stated) fails on the code in two ways.  First: the sink reaches end of stream
while `source_dep` is still null, the source side then registers itself, and a second
`set_eos()` on the sink returns at the `if (_eos) return;` guard, leaving the source's `eos()`
false.  Second: when the source is an `AndDependency` with a blocked child, `set_eos()` sets
its `_eos`, but `AndDependency::is_blocked_by` still returns the child. -/
theorem set_eos_source_counterexample :
    (∃ h1, set_eos Example.unpaired 0 = Outcome.ok h1 ∧
      (∃ d st, (h1.set_source_dep 0 (some 1)).deps[0]? = some d ∧
        d._is_write_dependency = true ∧ d._shared_state = some 0 ∧
        (h1.set_source_dep 0 (some 1)).shared_states[0]? = some st ∧
        st.source_dep = some 1) ∧
      set_eos (h1.set_source_dep 0 (some 1)) 0 = Outcome.ok (h1.set_source_dep 0 (some 1)) ∧
      eos (h1.set_source_dep 0 (some 1)) 1 = Outcome.ok false) ∧
    (∃ h2, set_eos Example.and_source 0 = Outcome.ok h2 ∧
      eos h2 1 = Outcome.ok true ∧
      is_blocked_by h2 1 none = Outcome.ok (some 2)) := by
  refine ⟨⟨_, rfl, ⟨_, _, rfl, rfl, rfl, rfl, rfl⟩, rfl, rfl⟩, ⟨_, rfl, rfl, rfl⟩⟩

/-- C1 (amended): for a write dependency `D` whose `_eos` is false and whose shared state
names a source dependency `S`, when `D.set_eos()` returns, `S.eos()` and `D.eos()` are true;
and `S.is_blocked_by(task)` returns null provided `S` is not an `AndDependency` or a
`RuntimeFilterDependency` (whose `is_blocked_by` does not read the flags). -/
theorem set_eos_reaches_source (h h' : Heap) (D S ss : Nat) (d : Dependency)
    (st : BasicSharedState) (task : Option Nat)
    (hD : h.deps[D]? = some d) (hw : d._is_write_dependency = true) (he : d._eos = false)
    (hss : d._shared_state = some ss) (hst : h.shared_states[ss]? = some st)
    (hsrc : st.source_dep = some S) (hr : set_eos h D = Outcome.ok h') :
    eos h' S = Outcome.ok true ∧ eos h' D = Outcome.ok true ∧
    (∀ s, h.deps[S]? = some s → s.kind.ready_means_unblocked = true →
      is_blocked_by h' S task = Outcome.ok none) := by
  have hself := set_eos_fuel_self _ hr
  have hfol := set_eos_fuel_follows _ hr
  unfold set_eos at hr
  rw [set_eos_fuel_succ _ hD] at hr
  have hne : ¬ d._eos = true := by rw [he]; exact Bool.false_ne_true
  rw [if_neg hne, if_pos hw] at hr
  simp only [hss] at hr
  rw [hst] at hr
  simp only [hsrc] at hr
  obtain ⟨s', hs', hse⟩ := set_eos_fuel_self _ hr
  obtain ⟨d', hd', hde⟩ := hself
  refine ⟨?_, ?_, ?_⟩
  · rw [eos_of_lookup hs', hse]
  · rw [eos_of_lookup hd', hde]
  · intro s hs hk
    obtain ⟨s2, hs2, hs2e⟩ := hfol.lookup hs
    rw [hs'] at hs2; cases hs2
    unfold is_blocked_by
    apply is_blocked_by_fuel_of_flag _ task hs' _ (Or.inr hse)
    rw [erase_flags_kind hs2e]; exact hk

/-- C1 (amended), at a concrete boundary: the sink at address 0 reaches end of stream and the
source at address 1 is at end of stream and not blocked when the call returns. -/
theorem set_eos_reaches_source_witness :
    ∃ h', set_eos Example.boundary 0 = Outcome.ok h' ∧
      eos h' 1 = Outcome.ok true ∧ eos h' 0 = Outcome.ok true ∧
      is_blocked_by h' 1 (some 7) = Outcome.ok none :=
  have hr : set_eos Example.boundary 0 = Outcome.ok Example.boundary_done := rfl
  have k := set_eos_reaches_source Example.boundary _ 0 1 0 _ _ (some 7) rfl rfl rfl rfl rfl rfl hr
  ⟨_, hr, k.1, k.2.1, k.2.2 _ rfl rfl⟩

/-- C2: `set_eos()` is idempotent.  When `D.set_eos()` returns heap `h1`, a second
`D.set_eos()` returns `h1` again: every flag of every dependency, the shared states and the
record of `set_ready()` invocations are those left by the first call.  A call on a
dependency whose `_eos` is already true returns the heap it was given. -/
theorem set_eos_idempotent (h : Heap) (D : Nat) :
    (∀ h1, set_eos h D = Outcome.ok h1 → set_eos h1 D = Outcome.ok h1) ∧
    (∀ d, h.deps[D]? = some d → d._eos = true → set_eos h D = Outcome.ok h) := by
  constructor
  · intro h1 hr
    obtain ⟨d', hd', hde⟩ := set_eos_fuel_self _ hr
    exact set_eos_fuel_of_eos _ hd' hde
  · intro d hd he
    exact set_eos_fuel_of_eos _ hd he

/-- C2 at a concrete boundary: the first call on the sink marks sink and source, the second
call returns the same heap. -/
theorem set_eos_idempotent_witness :
    ∃ h1, set_eos Example.boundary 0 = Outcome.ok h1 ∧ h1 ≠ Example.boundary ∧
      set_eos h1 0 = Outcome.ok h1 ∧
      (∃ d, h1.deps[0]? = some d ∧ d._eos = true) :=
  have hr : set_eos Example.boundary 0 = Outcome.ok Example.boundary_done := rfl
  ⟨_, hr, by decide, (set_eos_idempotent Example.boundary 0).1 _ hr,
    ⟨_, rfl, rfl⟩⟩

/-- C3 (as stated) fails for an `AndDependency`: after `set_eos()` on the composite its `eos()`
is true, yet `AndDependency::is_blocked_by` still returns its blocked child `C1`. -/
theorem eos_permanent_counterexample :
    Example.composite.no_eos = true ∧
    (∃ h1, run Example.composite [Call.set_eos 0] = Outcome.ok h1 ∧
      eos h1 0 = Outcome.ok true ∧
      run h1 [] = Outcome.ok h1 ∧
      is_blocked_by h1 0 none = Outcome.ok (some 1)) :=
  ⟨rfl, ⟨_, rfl, rfl, rfl, rfl⟩⟩

/-- C3 (amended): start from a heap in which no dependency is at end of stream (as the
constructors leave it) and perform any calls `cs1`; if dependency `p` is then at end of stream,
then after any further calls `cs2` its `_eos` and `_ready` are both true, and its
`is_blocked_by` returns null unless `p` is an `AndDependency` or a `RuntimeFilterDependency`.
Moreover `_eos` implies `_ready` for every dependency of the state reached. -/
theorem eos_permanent (h0 h1 h2 : Heap) (cs1 cs2 : List Call) (p : Nat) (d1 : Dependency)
    (hfresh : h0.no_eos = true)
    (hrun1 : run h0 cs1 = Outcome.ok h1)
    (hp : h1.deps[p]? = some d1) (he : d1._eos = true)
    (hrun2 : run h1 cs2 = Outcome.ok h2) :
    (∃ d2, h2.deps[p]? = some d2 ∧ d2._eos = true ∧ d2._ready = true ∧
      (d2.kind.ready_means_unblocked = true →
        ∀ task, is_blocked_by h2 p task = Outcome.ok none)) ∧
    h2.eos_implies_ready = true := by
  have f1 := run_follows cs1 hrun1
  have f2 := run_follows cs2 hrun2
  have inv : ∀ (h : Heap), Follows h0 h →
      ∀ (q : Nat) (d : Dependency), h.deps[q]? = some d → d._eos = true → d._ready = true := by
    intro h f q d hq hde
    obtain ⟨d0, hd0, _⟩ := f.lookup_back hq
    exact f.eos_ready q d0 d hd0 hq (Heap.no_eos_lookup hfresh hd0) hde
  obtain ⟨d2, hd2, _⟩ := f2.lookup hp
  have e2 : d2._eos = true := f2.eos_kept p d1 d2 hp hd2 he
  have r2 : d2._ready = true := f2.ready_kept p d1 d2 hp hd2 he (inv h1 f1 p d1 hp he)
  refine ⟨⟨d2, hd2, e2, r2, ?_⟩, Heap.eos_implies_ready_of (inv h2 (f1.trans f2))⟩
  intro hk task
  exact is_blocked_by_fuel_of_flag _ task hd2 hk (Or.inr e2)

/-- C3 (amended), at the example boundary: the sink's `set_eos()` puts the source (address 1)
at end of stream; after `block()`, `set_ready()` and `set_eos()` calls it is still at end of
stream, ready and not blocked. -/
theorem eos_permanent_witness :
    ∃ h1 h2, run Example.boundary [Call.set_eos 0] = Outcome.ok h1 ∧
      run h1 [Call.block 1, Call.set_ready 0, Call.block 0, Call.set_eos 1] = Outcome.ok h2 ∧
      (∃ d2, h2.deps[1]? = some d2 ∧ d2._eos = true ∧ d2._ready = true ∧
        is_blocked_by h2 1 none = Outcome.ok none) ∧
      h2.eos_implies_ready = true :=
  have hrun1 : run Example.boundary [Call.set_eos 0] = Outcome.ok Example.boundary_done := rfl
  have hrun2 : run Example.boundary_done
      [Call.block 1, Call.set_ready 0, Call.block 0, Call.set_eos 1] = Outcome.ok
      { Example.boundary with
        deps := [ { (Dependency.create_write 0 0 "sink" false).set_shared_state (some 0) with
                    _ready := true, _eos := true },
                  { (Dependency.create 1 0 "source").set_shared_state (some 0) with
                    _ready := true, _eos := true } ],
        set_ready_calls := [0, 1, 0] } := rfl
  have k := eos_permanent Example.boundary _ _ _ _ 1 _ rfl hrun1 rfl rfl hrun2
  match k with
  | ⟨⟨d2, hd2, e2, r2, hb⟩, hinv⟩ =>
    ⟨_, _, hrun1, hrun2, ⟨d2, hd2, e2, r2, hb (by cases hd2; rfl) none⟩, hinv⟩

/-- C4 (as stated) fails for a `FakeDependency`: `block()` on it (its `_eos` false) leaves
`_ready` false, but `FakeDependency::is_blocked_by` returns null, not the dependency. -/
theorem block_counterexample :
    (∃ d, Example.fake.deps[0]? = some d ∧ d._eos = false) ∧
    (∃ h', block Example.fake 0 = Outcome.ok h' ∧
      (∃ d', h'.deps[0]? = some d' ∧ d'._ready = false) ∧
      is_blocked_by h' 0 none = Outcome.ok none) :=
  ⟨⟨_, rfl, rfl⟩, ⟨_, rfl, ⟨_, rfl, rfl⟩, rfl⟩⟩

/-- C4 (amended): `block()` on a dependency whose `_eos` is false returns a heap in which that
dependency has `_ready` false and is otherwise the same object, every other dependency, the
shared states and the record of `set_ready()` calls are unchanged; `is_blocked_by` then
returns the dependency itself when its class inherits `Dependency::is_blocked_by`.
`block()` on a dependency whose `_eos` is true returns the heap unchanged. -/
theorem block_effect (h : Heap) (p : Nat) (d : Dependency) (hd : h.deps[p]? = some d) :
    (d._eos = false →
      ∃ h', block h p = Outcome.ok h' ∧
        h'.deps[p]? = some { d with _ready := false } ∧
        (∀ q, q ≠ p → h'.deps[q]? = h.deps[q]?) ∧
        h'.deps.length = h.deps.length ∧
        h'.shared_states = h.shared_states ∧
        h'.set_ready_calls = h.set_ready_calls ∧
        (d.kind.inherits_is_blocked_by = true →
          ∀ task, is_blocked_by h' p task = Outcome.ok (some p))) ∧
    (d._eos = true → block h p = Outcome.ok h) := by
  have hlt : p < h.deps.length := (List.getElem?_eq_some.mp hd).1
  constructor
  · intro he
    have hne : ¬ d._eos = true := by rw [he]; exact Bool.false_ne_true
    have hb : block h p = Outcome.ok (h.store p { d with _ready := false }) := by
      unfold block
      simp only [hd, if_neg hne]
    have hl : (h.store p { d with _ready := false }).deps[p]? =
        some { d with _ready := false } := List.getElem?_set_self hlt
    refine ⟨_, hb, hl, ?_, ?_, rfl, rfl, ?_⟩
    · intro q hq
      exact List.getElem?_set_ne (Ne.symm hq)
    · exact List.length_set _ _ _
    · intro hk task
      unfold is_blocked_by
      rw [is_blocked_by_fuel_inherited _ task hl hk]
      simp [Dependency.is_blocked_by, he]
  · intro he
    unfold block
    simp only [hd, if_pos he]

/-- C4 (amended), on a newly built dependency made ready and then blocked, and on the source
of the example boundary after end of stream. -/
theorem block_effect_witness :
    (∃ h1 h2, set_ready Example.plain 0 = Outcome.ok h1 ∧ block h1 0 = Outcome.ok h2 ∧
      is_blocked_by h1 0 none = Outcome.ok none ∧
      is_blocked_by h2 0 none = Outcome.ok (some 0)) ∧
    (∃ h1, set_eos Example.boundary 0 = Outcome.ok h1 ∧ block h1 1 = Outcome.ok h1) :=
  have hs : set_ready Example.plain 0 = Outcome.ok Example.plain_ready := rfl
  have he : set_eos Example.boundary 0 = Outcome.ok Example.boundary_done := rfl
  have k1 := (block_effect Example.plain_ready 0 _ rfl).1 rfl
  have k2 := (block_effect Example.boundary_done 1 _ rfl).2 rfl
  match k1 with
  | ⟨h2, hb, _, _, _, _, _, hblocked⟩ =>
    ⟨⟨_, h2, hs, hb, rfl, hblocked rfl none⟩, ⟨_, he, k2⟩⟩

/-- C5 (as stated) fails: a newly built `FakeDependency`, and a newly built write dependency
given `ready = true`, report not blocked although no `set_ready()` or `set_eos()` was ever
called on them. -/
theorem fresh_blocked_counterexample :
    (Example.fake.deps = [FakeDependency.create 0 0] ∧
      Example.fake.set_ready_calls = [] ∧
      is_blocked_by Example.fake 0 none = Outcome.ok none) ∧
    (Example.ready_writer.deps = [Dependency.create_write 0 0 "writer" true] ∧
      Example.ready_writer.set_ready_calls = [] ∧
      is_blocked_by Example.ready_writer 0 none = Outcome.ok none) :=
  ⟨⟨rfl, rfl, rfl⟩, ⟨rfl, rfl, rfl⟩⟩

/-- C5 (amended): a dependency whose class inherits `Dependency::is_blocked_by` and that was
built not ready (three-argument constructor, or `ready = false`) reports itself as blocking
after any calls on the graph during which `set_ready()` was not invoked on it.  A first
`set_eos()` on it, called directly or by a paired write dependency, invokes `set_ready()` on
it, so the condition also rules out `set_eos()`. -/
theorem blocked_until_signalled (h0 h : Heap) (cs : List Call) (p : Nat) (d0 : Dependency)
    (task : Option Nat)
    (hp : h0.deps[p]? = some d0) (hk : d0.kind.inherits_is_blocked_by = true)
    (hr0 : d0._ready = false) (he0 : d0._eos = false)
    (hrun : run h0 cs = Outcome.ok h)
    (hnone : h.set_ready_calls.count p = h0.set_ready_calls.count p) :
    is_blocked_by h p task = Outcome.ok (some p) := by
  have f := run_follows cs hrun
  obtain ⟨d, hd, hde⟩ := f.lookup hp
  have u := f.untouched p d0 d hp hd hnone
  have r : d._ready = false := by
    cases hr : d._ready with
    | false => rfl
    | true => rw [u.1 hr] at hr0; cases hr0
  have e : d._eos = false := by
    cases he : d._eos with
    | false => rfl
    | true => rw [u.2 he] at he0; cases he0
  unfold is_blocked_by
  rw [is_blocked_by_fuel_inherited _ task hd (by rw [erase_flags_kind hde]; exact hk)]
  simp [Dependency.is_blocked_by, r, e]

/-- C5 (amended), on the example boundary: after `block()` calls and a `set_ready()` on the
sink only, the source (address 1) still reports itself as blocking. -/
theorem blocked_until_signalled_witness :
    ∃ h, run Example.boundary [Call.block 1, Call.set_ready 0, Call.block 0] = Outcome.ok h ∧
      h.set_ready_calls = [0] ∧
      is_blocked_by h 1 (some 3) = Outcome.ok (some 1) :=
  have hrun : run Example.boundary [Call.block 1, Call.set_ready 0, Call.block 0] = Outcome.ok
      { Example.boundary with set_ready_calls := [0] } := rfl
  ⟨_, hrun, rfl,
    blocked_until_signalled Example.boundary _ _ 1 _ (some 3) rfl rfl rfl rfl hrun rfl⟩

/-- C6 (as stated) fails: `set_ready()` followed by `block()` on a plain dependency leaves it
blocked; and `set_ready()` on an `AndDependency` with a blocked child leaves it blocked by
that child. -/
theorem ready_forever_counterexample :
    (∃ h1 h2, set_ready Example.plain 0 = Outcome.ok h1 ∧
      run h1 [Call.block 0] = Outcome.ok h2 ∧
      is_blocked_by h2 0 none = Outcome.ok (some 0)) ∧
    (∃ h1, set_ready Example.composite 0 = Outcome.ok h1 ∧
      run h1 [] = Outcome.ok h1 ∧
      is_blocked_by h1 0 none = Outcome.ok (some 1)) :=
  ⟨⟨_, _, rfl, rfl, rfl⟩, ⟨_, rfl, rfl, rfl⟩⟩

/-- C6 (amended): once `set_ready()` has been called on a dependency that is not an
`AndDependency` or a `RuntimeFilterDependency`, its `is_blocked_by` returns null after every
later sequence of `set_ready`, `set_eos`, `set_ready_to_read` and `block` calls on the graph
in which `block()` is not called on that dependency. -/
theorem ready_until_blocked (h0 h1 h2 : Heap) (cs : List Call) (p : Nat) (d : Dependency)
    (task : Option Nat)
    (hp : h0.deps[p]? = some d) (hk : d.kind.ready_means_unblocked = true)
    (hset : set_ready h0 p = Outcome.ok h1)
    (hnb : Call.block p ∉ cs)
    (hrun : run h1 cs = Outcome.ok h2) :
    is_blocked_by h2 p task = Outcome.ok none := by
  obtain ⟨d1, hd1, hr1⟩ := set_ready_sets hset
  have f1 := set_ready_follows hset
  have f2 := run_follows cs hrun
  obtain ⟨d2, hd2, hde2⟩ := f2.lookup hd1
  obtain ⟨d1', hd1', hde1⟩ := f1.lookup hp
  rw [hd1] at hd1'; cases hd1'
  have r2 : d2._ready = true := run_ready_kept cs hrun hnb d1 d2 hd1 hd2 hr1
  have k2 : d2.kind.ready_means_unblocked = true := by
    rw [erase_flags_kind hde2, erase_flags_kind hde1]; exact hk
  exact is_blocked_by_fuel_of_flag _ task hd2 k2 (Or.inl r2)

/-- C6 (amended), on the example boundary: the source is made ready; calls that block the
sink, end the sink's stream and make the source ready again leave the source not blocked. -/
theorem ready_until_blocked_witness :
    ∃ h1 h2, set_ready Example.boundary 1 = Outcome.ok h1 ∧
      run h1 [Call.block 0, Call.set_ready_to_read 0, Call.set_eos 0, Call.block 0] =
        Outcome.ok h2 ∧
      is_blocked_by h2 1 none = Outcome.ok none :=
  have hset : set_ready Example.boundary 1 = Outcome.ok Example.boundary_source_ready := rfl
  have hrun : run Example.boundary_source_ready
      [Call.block 0, Call.set_ready_to_read 0, Call.set_eos 0, Call.block 0] = Outcome.ok
      { Example.boundary with
        deps := [ { (Dependency.create_write 0 0 "sink" false).set_shared_state (some 0) with
                    _ready := true, _eos := true },
                  { (Dependency.create 1 0 "source").set_shared_state (some 0) with
                    _ready := true, _eos := true } ],
        set_ready_calls := [1, 1, 0, 1] } := rfl
  ⟨_, _, hset, hrun,
    ready_until_blocked Example.boundary _ _ _ 1 _ none rfl rfl hset (by decide) hrun⟩

/-- C7: a newly built `AsyncWriterDependency`, and likewise a newly built
`ResultSinkDependency`, is a write dependency with `_ready` true and `_eos` false, and
`is_blocked_by` returns null on it, for every task, as soon as it is placed in a heap. -/
theorem writer_dependencies_start_ready (h : Heap) (id node_id : Int) (task : Option Nat) :
    ((AsyncWriterDependency.create id node_id)._is_write_dependency = true ∧
      (AsyncWriterDependency.create id node_id)._ready = true ∧
      (AsyncWriterDependency.create id node_id)._eos = false ∧
      is_blocked_by (h.alloc (AsyncWriterDependency.create id node_id)).2
        (h.alloc (AsyncWriterDependency.create id node_id)).1 task = Outcome.ok none) ∧
    ((ResultSinkDependency.create id node_id)._is_write_dependency = true ∧
      (ResultSinkDependency.create id node_id)._ready = true ∧
      (ResultSinkDependency.create id node_id)._eos = false ∧
      is_blocked_by (h.alloc (ResultSinkDependency.create id node_id)).2
        (h.alloc (ResultSinkDependency.create id node_id)).1 task = Outcome.ok none) := by
  refine ⟨⟨rfl, rfl, rfl, ?_⟩, ⟨rfl, rfl, rfl, ?_⟩⟩
  · exact is_blocked_by_fuel_of_flag _ task (alloc_lookup h _) rfl (Or.inl rfl)
  · exact is_blocked_by_fuel_of_flag _ task (alloc_lookup h _) rfl (Or.inl rfl)

/-- C8: `is_blocked_by` returns null on a `FakeDependency` for every task and in every state
reached from any heap holding it by any sequence of `set_ready`, `block`, `set_eos` and
`set_ready_to_read` calls: right after construction (no call) and after `block()` included. -/
theorem fake_never_blocks (h0 h : Heap) (cs : List Call) (p : Nat) (d : Dependency)
    (task : Option Nat)
    (hp : h0.deps[p]? = some d) (hk : d.kind = DependencyKind.FakeDependency)
    (hrun : run h0 cs = Outcome.ok h) :
    is_blocked_by h p task = Outcome.ok none := by
  obtain ⟨d', hd', hde⟩ := (run_follows cs hrun).lookup hp
  have hk' : d'.kind = DependencyKind.FakeDependency := by
    rw [erase_flags_kind hde]; exact hk
  unfold is_blocked_by
  rw [is_blocked_by_fuel]
  simp only [hd', hk']

/-- C8 on a newly built `FakeDependency` (`_ready` false): not blocked before any call, and
not blocked after `block()`. -/
theorem fake_never_blocks_witness :
    (∃ d, Example.fake.deps[0]? = some d ∧ d = FakeDependency.create 0 0 ∧ d._ready = false) ∧
    is_blocked_by Example.fake 0 (some 5) = Outcome.ok none ∧
    (∃ h, run Example.fake [Call.block 0] = Outcome.ok h ∧
      is_blocked_by h 0 (some 5) = Outcome.ok none) :=
  have hrun0 : run Example.fake [] = Outcome.ok Example.fake := rfl
  have hrun1 : run Example.fake [Call.block 0] = Outcome.ok Example.fake := rfl
  ⟨⟨_, rfl, rfl, rfl⟩,
    fake_never_blocks Example.fake _ [] 0 _ (some 5) rfl rfl hrun0,
    ⟨_, hrun1, fake_never_blocks Example.fake _ [Call.block 0] 0 _ (some 5) rfl rfl hrun1⟩⟩

/-- C10 (as stated, for every `n >= 1`) fails at `n = 2^32 + 1`: `running_sink_operators` is a
`std::atomic<int>`, so after that many increments it holds 1, and already the first
`sub_running_sink_operators()` call (one of the first `n - 1`) makes every channel ready. -/
theorem sink_counter_counterexample :
    Example.exchange.running_sink_operators = 0 ∧
    Example.exchange.all_blocked Example.channels = true ∧
    (1 : Nat) ≤ 4294967297 - 1 ∧
    (Example.exchange.add_times 4294967297).running_sink_operators = 1 ∧
    (∃ s1 h1, (Example.exchange.add_times 4294967297).sub_times 1 Example.channels =
        Outcome.ok (s1, h1) ∧
      h1.set_ready_calls = [0, 1] ∧
      s1.all_blocked h1 = false ∧
      is_blocked_by h1 0 none = Outcome.ok none ∧
      is_blocked_by h1 1 none = Outcome.ok none) := by
  have hw : wrap_int (Example.exchange.running_sink_operators + ((4294967296 + 1 : Nat) : Int))
      = 1 := by decide
  have hadd : Example.exchange.add_times 4294967297 =
      { Example.exchange with running_sink_operators := 1 } := by
    have e := LocalExchangeSharedState.add_times_eq 4294967296 Example.exchange
    rw [hw] at e
    exact e
  refine ⟨rfl, rfl, by decide, by rw [hadd], ?_⟩
  rw [hadd]
  exact ⟨_, _, rfl, rfl, rfl, rfl, rfl⟩

/-- C10 (amended): for every `n` with `1 <= n <= 2^32` and every exchange whose counter is 0
and whose channels are all bound to blocked dependencies: after `n` calls of
`add_running_sink_operators`, the first `k` calls of `sub_running_sink_operators`, for every
`k < n`, return and leave the heap as it was (every channel still blocked, no `set_ready()`
invoked); the first `n` calls return with the counter at 0, `set_ready()` invoked exactly
once per channel, in channel order, `_ready` set on every channel's dependency, and every
other dependency untouched. -/
theorem last_sink_wakes_channels (n : Nat) (s : LocalExchangeSharedState) (h : Heap)
    (hn : 1 ≤ n) (hmax : n ≤ 4294967296)
    (hzero : s.running_sink_operators = 0)
    (hblocked : s.all_blocked h = true) :
    (∀ k, k < n → ∃ sk, (s.add_times n).sub_times k h = Outcome.ok (sk, h) ∧
      sk.source_dependencies = s.source_dependencies ∧ sk.all_blocked h = true) ∧
    (∃ hf, (s.add_times n).sub_times n h = Outcome.ok (s, hf) ∧
      hf.set_ready_calls = h.set_ready_calls ++ s.bound ∧
      (∀ c ∈ s.source_dependencies, ∃ p d, c = some p ∧ hf.deps[p]? = some d ∧
        d._ready = true) ∧
      (∀ q, q ∉ s.bound → hf.deps[q]? = h.deps[q]?)) := by
  obtain ⟨m, rfl⟩ : ∃ m, n = m + 1 := ⟨n - 1, by omega⟩
  have hadd : s.add_times (m + 1) =
      { s with running_sink_operators := wrap_int ((m + 1 : Nat) : Int) } := by
    rw [LocalExchangeSharedState.add_times_eq, hzero, zero_add]
  have hbound := LocalExchangeSharedState.all_blocked_bound hblocked
  constructor
  · intro k hk
    rw [hadd, LocalExchangeSharedState.sub_times_quiet k (m + 1)
      { s with running_sink_operators := wrap_int ((m + 1 : Nat) : Int) } h hk hmax rfl]
    exact ⟨_, rfl, rfl, hblocked⟩
  · obtain ⟨hf, hloop, hlog, _, _, hdeps⟩ :=
      LocalExchangeSharedState.set_ready_loop_ok s.source_dependencies h hbound
    have hs : ({ s with running_sink_operators := 0 } : LocalExchangeSharedState) = s := by
      rw [← hzero]
    refine ⟨hf, ?_, hlog, ?_, ?_⟩
    · rw [hadd, LocalExchangeSharedState.sub_times_last m
        { s with running_sink_operators := wrap_int ((m + 1 : Nat) : Int) } h hmax rfl]
      show (match LocalExchangeSharedState._set_ready_for_read_loop s.source_dependencies h with
        | Outcome.fault f => Outcome.fault f
        | Outcome.ok h1 => Outcome.ok
            ({ s with running_sink_operators := 0 }, h1)) = Outcome.ok (s, hf)
      rw [hloop, hs]
    · intro c hc
      obtain ⟨p, rfl, hp⟩ := hbound c hc
      have hmem : p ∈ s.source_dependencies.filterMap id :=
        List.mem_filterMap.mpr ⟨some p, hc, rfl⟩
      refine ⟨p, { h.deps[p] with _ready := true }, rfl, ?_, rfl⟩
      rw [hdeps p, if_pos hmem, List.getElem?_eq_getElem hp]
      rfl
    · intro q hq
      have hq' : q ∉ s.source_dependencies.filterMap id := hq
      rw [hdeps q, if_neg hq']

/-- C10 (amended) for three sink operators and two channels: the first two
`sub_running_sink_operators()` calls leave both channels blocked, the third invokes
`set_ready()` once on channel 0 and once on channel 1 and leaves the counter at 0. -/
theorem last_sink_wakes_channels_witness :
    (Example.exchange.add_times 3).sub_times 2 Example.channels =
      Outcome.ok ({ Example.exchange with running_sink_operators := 1 }, Example.channels) ∧
    (∃ hf, (Example.exchange.add_times 3).sub_times 3 Example.channels =
        Outcome.ok (Example.exchange, hf) ∧
      hf.set_ready_calls = [0, 1] ∧
      (∀ c ∈ Example.exchange.source_dependencies, ∃ p d, c = some p ∧
        hf.deps[p]? = some d ∧ d._ready = true)) :=
  have k := last_sink_wakes_channels 3 Example.exchange Example.channels
    (by decide) (by decide) rfl rfl
  match k.2 with
  | ⟨hf, hrun, hlog, hready, _⟩ => ⟨rfl, ⟨hf, hrun, hlog, hready⟩⟩

/-- C11 (as stated) fails for the final conjunct: binding a dependency that is already at end
of stream leaves it not blocked (`block()` returns at its `_eos` guard), and binding a
`FakeDependency` leaves it not blocked (its `is_blocked_by` always returns null). -/
theorem set_dep_by_channel_id_counterexample :
    (eos Example.boundary_done 1 = Outcome.ok true ∧
      ∃ s1 h1, Example.unbound_exchange.set_dep_by_channel_id Example.boundary_done (some 1) 0 =
          Outcome.ok (s1, h1) ∧
        s1.source_dependencies = [some 1, none] ∧
        is_blocked_by h1 1 none = Outcome.ok none) ∧
    (Example.fake.deps = [FakeDependency.create 0 0] ∧
      ∃ s1 h1, Example.unbound_exchange.set_dep_by_channel_id Example.fake (some 0) 1 =
          Outcome.ok (s1, h1) ∧
        s1.source_dependencies = [none, some 0] ∧
        is_blocked_by h1 0 none = Outcome.ok none) :=
  ⟨⟨rfl, ⟨_, _, rfl, rfl, rfl⟩⟩, ⟨rfl, ⟨_, _, rfl, rfl, rfl⟩⟩⟩

/-- C11 (amended): for every dependency `dep` of the heap and every valid channel index `c`,
`set_dep_by_channel_id(dep, c)` returns; afterwards `source_dependencies[c]` is `dep`, every
other entry and the counter are unchanged, and, when `dep` is not at end of stream, its
`_ready` is false and `dep.is_blocked_by` returns `dep` itself if its class inherits
`Dependency::is_blocked_by`. -/
theorem set_dep_by_channel_id_binds (s : LocalExchangeSharedState) (h : Heap) (p c : Nat)
    (d : Dependency)
    (hc : c < s.source_dependencies.length) (hp : h.deps[p]? = some d) :
    ∃ s1 h1, s.set_dep_by_channel_id h (some p) (c : Int) = Outcome.ok (s1, h1) ∧
      s1.source_dependencies[c]? = some (some p) ∧
      (∀ c', c' ≠ c → s1.source_dependencies[c']? = s.source_dependencies[c']?) ∧
      s1.source_dependencies.length = s.source_dependencies.length ∧
      s1.running_sink_operators = s.running_sink_operators ∧
      (d._eos = false →
        (∃ d1, h1.deps[p]? = some d1 ∧ d1._ready = false ∧ d1._eos = false) ∧
        (d.kind.inherits_is_blocked_by = true →
          ∀ task, is_blocked_by h1 p task = Outcome.ok (some p))) := by
  have hlt : p < h.deps.length := (List.getElem?_eq_some.mp hp).1
  refine ⟨{ s with source_dependencies := s.source_dependencies.set c (some p) },
    if d._eos = true then h else h.store p { d with _ready := false }, ?_, ?_, ?_, ?_, rfl, ?_⟩
  · unfold LocalExchangeSharedState.set_dep_by_channel_id
    rw [if_neg (channel_in_range hc)]
    simp only [block_ok hp, Int.toNat_natCast]
  · exact List.getElem?_set_self hc
  · intro c' hne
    exact List.getElem?_set_ne (Ne.symm hne)
  · exact List.length_set _ _ _
  · intro he
    have hne : ¬ d._eos = true := by rw [he]; exact Bool.false_ne_true
    rw [if_neg hne]
    have hl : (h.store p { d with _ready := false }).deps[p]? =
        some { d with _ready := false } := List.getElem?_set_self hlt
    refine ⟨⟨_, hl, rfl, he⟩, ?_⟩
    intro hk task
    unfold is_blocked_by
    rw [is_blocked_by_fuel_inherited _ task hl hk]
    simp [Dependency.is_blocked_by, he]

/-- C11 (amended) on the example channels: binding the dependency at address 0, made ready
before, to channel 1 of an exchange with two unbound channels. -/
theorem set_dep_by_channel_id_binds_witness :
    is_blocked_by Example.channels_first_ready 0 none = Outcome.ok none ∧
    ∃ s1 h1, Example.unbound_exchange.set_dep_by_channel_id Example.channels_first_ready
        (some 0) 1 = Outcome.ok (s1, h1) ∧
      s1.source_dependencies[1]? = some (some 0) ∧
      s1.source_dependencies[0]? = some none ∧
      is_blocked_by h1 0 none = Outcome.ok (some 0) :=
  match set_dep_by_channel_id_binds Example.unbound_exchange Example.channels_first_ready
      0 1 _ (by decide) rfl with
  | ⟨s1, h1, hr, hbound, hothers, _, _, hblocked⟩ =>
    ⟨rfl, s1, h1, hr, hbound, hothers 0 (by decide), (hblocked rfl).2 rfl none⟩

/-- C12: for an exchange whose channel table holds no dependency twice,
`set_ready_for_read(c)` on a valid bound channel `c` returns; afterwards channel `c`'s
dependency has `_ready` true and is otherwise the same object, the dependency of every other
channel is unchanged (its `_ready` and `_eos` included), and the `source_dependencies` table,
the running-sink counter and the shared states are unchanged. -/
theorem set_ready_for_read_frame (s : LocalExchangeSharedState) (h : Heap) (c p : Nat)
    (d : Dependency)
    (hdistinct : s.source_dependencies.Nodup)
    (hc : s.source_dependencies[c]? = some (some p)) (hp : h.deps[p]? = some d) :
    ∃ h1, s.set_ready_for_read h (c : Int) = Outcome.ok (s, h1) ∧
      h1.deps[p]? = some { d with _ready := true } ∧
      (∀ c' q, c' ≠ c → s.source_dependencies[c']? = some (some q) →
        h1.deps[q]? = h.deps[q]?) ∧
      h1.shared_states = h.shared_states := by
  have hlt : p < h.deps.length := (List.getElem?_eq_some.mp hp).1
  have hclt : c < s.source_dependencies.length := (List.getElem?_eq_some.mp hc).1
  refine ⟨{ h with deps := h.deps.set p { d with _ready := true },
                   set_ready_calls := h.set_ready_calls ++ [p] }, ?_, ?_, ?_, rfl⟩
  · unfold LocalExchangeSharedState.set_ready_for_read
    rw [if_neg (channel_in_range hclt)]
    simp only [Int.toNat_natCast, hc, set_ready, hp]
  · exact List.getElem?_set_self hlt
  · intro c' q hne hq
    have hpq : p ≠ q := by
      intro e
      subst e
      exact hne (List.getElem?_inj hclt hdistinct (hc.trans hq.symm)).symm
    exact List.getElem?_set_ne hpq

/-- C12 on the example exchange: `set_ready_for_read(0)` makes channel 0's dependency ready
and leaves channel 1's dependency blocked. -/
theorem set_ready_for_read_frame_witness :
    Example.exchange.set_ready_for_read Example.channels 0 =
      Outcome.ok (Example.exchange, Example.channels_first_ready) ∧
    ∃ h1, Example.exchange.set_ready_for_read Example.channels 0 =
        Outcome.ok (Example.exchange, h1) ∧
      is_blocked_by h1 0 none = Outcome.ok none ∧
      h1.deps[1]? = Example.channels.deps[1]? ∧
      is_blocked_by h1 1 none = Outcome.ok (some 1) :=
  match set_ready_for_read_frame Example.exchange Example.channels 0 0 _ (by decide) rfl rfl
    with
  | ⟨h1, hr, hp, hothers, _⟩ =>
    have e : h1 = Example.channels_first_ready := by
      have k : Example.exchange.set_ready_for_read Example.channels ((0 : Nat) : Int) =
        Outcome.ok (Example.exchange, Example.channels_first_ready) := rfl
      rw [k] at hr
      cases hr
      rfl
    ⟨rfl, h1, hr, by rw [e]; rfl, hothers 1 1 (by decide) rfl, by rw [e]; rfl⟩

/-- C13: for a dependency `D` with a shared state attached, `D.set_ready_to_read()` ends in a
failed `DCHECK` exactly when `D` is not a write dependency or the shared state's `source_dep`
is null.  Otherwise, the paired source `S` being a live dependency, the call returns, `S` has
`_ready` true afterwards, `D`'s `_eos` is unchanged and, when `D` is not its own source,
`D`'s `_ready` is unchanged. -/
theorem set_ready_to_read_contract (h : Heap) (D ss : Nat) (d : Dependency)
    (st : BasicSharedState)
    (hD : h.deps[D]? = some d) (hss : d._shared_state = some ss)
    (hst : h.shared_states[ss]? = some st) :
    (set_ready_to_read h D = Outcome.fault Fault.dcheck_failed ↔
      (d._is_write_dependency = false ∨ st.source_dep = none)) ∧
    (∀ S s, d._is_write_dependency = true → st.source_dep = some S → h.deps[S]? = some s →
      ∃ h1, set_ready_to_read h D = Outcome.ok h1 ∧
        h1.deps[S]? = some { s with _ready := true } ∧
        (∃ d1, h1.deps[D]? = some d1 ∧ d1._eos = d._eos ∧ (D ≠ S → d1._ready = d._ready))) := by
  constructor
  · unfold set_ready_to_read
    simp only [hD, hss, hst]
    cases hw : d._is_write_dependency with
    | false => simp
    | true =>
      cases hsrc : st.source_dep with
      | none => simp
      | some S =>
        simp only [Bool.not_true, Bool.false_eq_true, if_false, false_or]
        unfold set_ready
        cases h.deps[S]? <;> simp
  · intro S s hw hsrc hS
    have hlt : S < h.deps.length := (List.getElem?_eq_some.mp hS).1
    refine ⟨{ h with deps := h.deps.set S { s with _ready := true },
                     set_ready_calls := h.set_ready_calls ++ [S] }, ?_, ?_, ?_⟩
    · unfold set_ready_to_read
      simp only [hD, hss, hst, hw, hsrc, set_ready, hS]
      rfl
    · exact List.getElem?_set_self hlt
    · by_cases hDS : D = S
      · subst hDS
        rw [hD] at hS
        cases hS
        exact ⟨_, List.getElem?_set_self hlt, rfl, fun hne => absurd rfl hne⟩
      · refine ⟨d, ?_, rfl, fun _ => rfl⟩
        show (h.deps.set S { s with _ready := true })[D]? = some d
        rw [List.getElem?_set_ne (Ne.symm hDS)]
        exact hD

/-- C13 on the example boundary: on the sink the call returns and makes the source ready; on
the source (not a write dependency) and on a sink whose shared state has no source yet, the
`DCHECK` fails. -/
theorem set_ready_to_read_contract_witness :
    (∃ h1, set_ready_to_read Example.boundary 0 = Outcome.ok h1 ∧
      is_blocked_by h1 1 none = Outcome.ok none ∧
      is_blocked_by h1 0 none = Outcome.ok (some 0)) ∧
    set_ready_to_read Example.boundary 1 = Outcome.fault Fault.dcheck_failed ∧
    set_ready_to_read Example.unpaired 0 = Outcome.fault Fault.dcheck_failed :=
  have k := set_ready_to_read_contract Example.boundary 0 0 _ _ rfl rfl rfl
  have k1 := set_ready_to_read_contract Example.boundary 1 0 _ _ rfl rfl rfl
  have k2 := set_ready_to_read_contract Example.unpaired 0 0 _ _ rfl rfl rfl
  match k.2 1 _ rfl rfl rfl with
  | ⟨h1, hr, _, _⟩ =>
    have e : h1 = Example.boundary_source_ready := by
      have r : set_ready_to_read Example.boundary 0 =
        Outcome.ok Example.boundary_source_ready := rfl
      rw [r] at hr
      cases hr
      rfl
    ⟨⟨h1, hr, by rw [e]; rfl, by rw [e]; rfl⟩, k1.1.mpr (Or.inl rfl), k2.1.mpr (Or.inr rfl)⟩

/-- C14: a defect of the code.  `set_eos()` guards `source_dep` against null but not
`_shared_state`: on a write dependency that has no shared state attached and is not yet at
eos, such as a newly built `AsyncWriterDependency` or `ResultSinkDependency`, the condition
`_is_write_dependency && _shared_state->source_dep != nullptr` reads through the null
`_shared_state`, so the call does not complete normally. -/
theorem set_eos_dereferences_null_shared_state :
    Example.async_writer.deps = [AsyncWriterDependency.create 0 0] ∧
    (AsyncWriterDependency.create 0 0)._is_write_dependency = true ∧
    (AsyncWriterDependency.create 0 0)._shared_state = none ∧
    (AsyncWriterDependency.create 0 0)._eos = false ∧
    set_eos Example.async_writer 0 = Outcome.fault Fault.null_dereference ∧
    Example.result_sink.deps = [ResultSinkDependency.create 0 0] ∧
    (ResultSinkDependency.create 0 0)._is_write_dependency = true ∧
    (ResultSinkDependency.create 0 0)._shared_state = none ∧
    (ResultSinkDependency.create 0 0)._eos = false ∧
    set_eos Example.result_sink 0 = Outcome.fault Fault.null_dereference :=
  ⟨rfl, rfl, rfl, rfl, rfl, rfl, rfl, rfl, rfl, rfl⟩

/-- Where `set_eos()` does return: on every dependency that is not a write dependency, with
or without a shared state; on every write dependency whose attached shared state has a null
`source_dep`; and on every dependency of a graph in which each write dependency has a shared
state attached (whose `source_dep` is null or a live dependency). -/
theorem set_eos_returns_with_shared_state (h : Heap) (p : Nat) (d : Dependency)
    (hp : h.deps[p]? = some d) :
    (d._is_write_dependency = false → ∃ h', set_eos h p = Outcome.ok h') ∧
    (∀ ss st, d._shared_state = some ss → h.shared_states[ss]? = some st →
      st.source_dep = none → ∃ h', set_eos h p = Outcome.ok h') ∧
    (h.write_deps_paired = true → ∃ h', set_eos h p = Outcome.ok h') := by
  refine ⟨?_, ?_, ?_⟩
  · intro hw
    unfold set_eos
    rw [set_eos_fuel_succ _ hp]
    by_cases he : d._eos = true
    · exact ⟨h, by rw [if_pos he]⟩
    · rw [if_neg he, hw]
      exact ⟨_, rfl⟩
  · intro ss st hss hst hsrc
    unfold set_eos
    rw [set_eos_fuel_succ _ hp]
    by_cases he : d._eos = true
    · exact ⟨h, by rw [if_pos he]⟩
    · rw [if_neg he]
      by_cases hw : d._is_write_dependency = true
      · rw [if_pos hw]
        simp only [hss, hst, hsrc]
        exact ⟨_, rfl⟩
      · rw [if_neg hw]
        exact ⟨_, rfl⟩
  · intro hw
    apply set_eos_fuel_returns _ h p d _ hw hp
    have : h.pending ≤ h.deps.length := List.countP_le_length _
    omega

/-- The cases in which `set_eos()` returns, on the examples: a newly built plain dependency
without shared state, a sink whose shared state has no source yet, and the sink of the
example boundary. -/
theorem set_eos_returns_with_shared_state_witness :
    (∃ h', set_eos Example.plain 0 = Outcome.ok h') ∧
    (∃ h', set_eos Example.unpaired 0 = Outcome.ok h') ∧
    (∃ h', set_eos Example.boundary 0 = Outcome.ok h') :=
  ⟨(set_eos_returns_with_shared_state Example.plain 0 _ rfl).1 rfl,
    (set_eos_returns_with_shared_state Example.unpaired 0 _ rfl).2.1 0 _ rfl rfl rfl,
    (set_eos_returns_with_shared_state Example.boundary 0 _ rfl).2.2 rfl⟩

/-- C15: for a `RuntimeFilterDependency` whose count is zero, as the constructor leaves it,
and with no cancellation in effect, after any sequence of `N` `add_filters` and `M`
`sub_filters` calls with `M <= N`, the calls return and `is_blocked_by` returns null if
`M = N` and the dependency itself (non-null) if `M < N`: the dependency is blocked exactly
while the outstanding-filter count is above zero. -/
theorem runtime_filter_blocked_while_pending (h : Heap) (p : Nat) (d : Dependency)
    (flag : Option Bool) (cs : List FilterCall) (task : Option Nat)
    (hp : h.deps[p]? = some d)
    (hk : d.kind = DependencyKind.RuntimeFilterDependency 0 flag)
    (hflag : flag ≠ some false)
    (hle : cs.count FilterCall.sub_filters ≤ cs.count FilterCall.add_filters) :
    ∃ h', filter_calls h p cs = Outcome.ok h' ∧
      is_blocked_by h' p task = Outcome.ok
        (if cs.count FilterCall.sub_filters = cs.count FilterCall.add_filters then none
          else some p) := by
  obtain ⟨h', hr, hlen, hres⟩ := filter_calls_count cs h p d 0 flag hp hk
  rw [zero_add] at hres
  refine ⟨h', hr, ?_⟩
  unfold is_blocked_by
  rw [is_blocked_by_fuel_rf _ task hres rfl]
  by_cases he : cs.count FilterCall.sub_filters = cs.count FilterCall.add_filters
  · simp [RuntimeFilterDependency.is_blocked_by, he]
  · have hpos : (0 : Int) < (cs.count FilterCall.add_filters : Int)
        - (cs.count FilterCall.sub_filters : Int) := by omega
    simp [RuntimeFilterDependency.is_blocked_by, hpos, hflag, he]

/-- C15 on a newly built `RuntimeFilterDependency`: not blocked before any call; two filters
registered and one arrived leave it blocked; once the second has arrived it is not blocked. -/
theorem runtime_filter_blocked_while_pending_witness :
    Example.runtime_filter.deps = [RuntimeFilterDependency.create 0 0 "rf"] ∧
    is_blocked_by Example.runtime_filter 0 none = Outcome.ok none ∧
    (∃ h', filter_calls Example.runtime_filter 0
        [FilterCall.add_filters, FilterCall.add_filters, FilterCall.sub_filters] =
          Outcome.ok h' ∧
      is_blocked_by h' 0 none = Outcome.ok (some 0)) ∧
    (∃ h', filter_calls Example.runtime_filter 0
        [FilterCall.add_filters, FilterCall.sub_filters, FilterCall.add_filters,
          FilterCall.sub_filters] = Outcome.ok h' ∧
      is_blocked_by h' 0 none = Outcome.ok none) :=
  have k1 := runtime_filter_blocked_while_pending Example.runtime_filter 0 _ none
    [FilterCall.add_filters, FilterCall.add_filters, FilterCall.sub_filters] none rfl rfl
    (by decide) (by decide)
  have k2 := runtime_filter_blocked_while_pending Example.runtime_filter 0 _ none
    [FilterCall.add_filters, FilterCall.sub_filters, FilterCall.add_filters,
      FilterCall.sub_filters] none rfl rfl (by decide) (by decide)
  match k1, k2 with
  | ⟨h1, r1, b1⟩, ⟨h2, r2, n2⟩ => ⟨rfl, rfl, ⟨h1, r1, b1⟩, ⟨h2, r2, n2⟩⟩

/-- C16: a newly built `RuntimeFilterTimer` whose parent is a live `RuntimeFilterDependency`
is a one-shot state machine.  Every sequence of `call_ready` and `call_timeout` calls
returns; afterwards at most one of the two flags is set; with no call nothing has changed;
otherwise the first call decides which flag is set and the parent has received exactly one
`sub_filters()`; and a `call_timeout` after `call_ready` changes nothing. -/
theorem timer_is_one_shot (h : Heap) (p : Nat) (d : Dependency) (f : Int)
    (flag : Option Bool) (registration_time wait_time_ms : Int) (runtime_filter : Option Nat)
    (cs : List TimerCall)
    (hp : h.deps[p]? = some d)
    (hk : d.kind = DependencyKind.RuntimeFilterDependency f flag) :
    ∃ t h', timer_calls
        (RuntimeFilterTimer.create registration_time wait_time_ms (some p) runtime_filter)
        h cs = Outcome.ok (t, h') ∧
      ¬ (t._call_ready = true ∧ t._call_timeout = true) ∧
      (cs = [] → t._call_ready = false ∧ t._call_timeout = false ∧ h' = h) ∧
      (∀ c rest, cs = c :: rest →
        t._call_ready = decide (c = TimerCall.call_ready) ∧
        t._call_timeout = decide (c = TimerCall.call_timeout) ∧
        t.has_ready = decide (c = TimerCall.call_ready) ∧
        sub_filters h p = Outcome.ok h') ∧
      (t._call_ready = true → t.call_timeout h' = Outcome.ok (t, h')) := by
  have hsub := sub_filters_ok hp hk
  cases cs with
  | nil =>
    refine ⟨_, h, rfl, ?_, ?_, ?_, ?_⟩
    · intro hc; cases hc.1
    · intro _; exact ⟨rfl, rfl, rfl⟩
    · intro c rest hc; cases hc
    · intro hc; cases hc
  | cons c rest =>
    cases c with
    | call_ready =>
      refine ⟨{ RuntimeFilterTimer.create registration_time wait_time_ms (some p)
                  runtime_filter with _call_ready := true },
        h.store p (d.with_filters (f - 1) flag), ?_, ?_, ?_, ?_, ?_⟩
      · rw [timer_calls]
        simp only [RuntimeFilterTimer.perform, RuntimeFilterTimer.call_ready,
          RuntimeFilterTimer.create, RuntimeFilterTimer.deliver, hsub, Bool.or_self,
          Bool.false_eq_true, if_false]
        exact timer_calls_latched rest _ _ rfl
      · intro hc; cases hc.2
      · intro hc; cases hc
      · intro c rest' hc
        cases hc
        exact ⟨rfl, rfl, rfl, hsub⟩
      · intro _
        rfl
    | call_timeout =>
      refine ⟨{ RuntimeFilterTimer.create registration_time wait_time_ms (some p)
                  runtime_filter with _call_timeout := true },
        h.store p (d.with_filters (f - 1) flag), ?_, ?_, ?_, ?_, ?_⟩
      · rw [timer_calls]
        simp only [RuntimeFilterTimer.perform, RuntimeFilterTimer.call_timeout,
          RuntimeFilterTimer.create, RuntimeFilterTimer.deliver, hsub, Bool.or_self,
          Bool.false_eq_true, if_false]
        exact timer_calls_latched rest _ _ rfl
      · intro hc; cases hc.1
      · intro hc; cases hc
      · intro c rest' hc
        cases hc
        exact ⟨rfl, rfl, rfl, hsub⟩
      · intro hc; cases hc

/-- C16 on a dependency with one filter outstanding: the filter arrives, the timer later
expires and the filter is signalled again; the timer stays ready, the parent's count dropped
once, to zero, and the parent is not blocked. -/
theorem timer_is_one_shot_witness :
    is_blocked_by Example.one_filter_pending 0 none = Outcome.ok (some 0) ∧
    ∃ t h', timer_calls (RuntimeFilterTimer.create 100 1000 (some 0) none)
        Example.one_filter_pending
        [TimerCall.call_ready, TimerCall.call_timeout, TimerCall.call_ready] =
          Outcome.ok (t, h') ∧
      t.has_ready = true ∧ t._call_timeout = false ∧
      h' = Example.runtime_filter ∧
      is_blocked_by h' 0 none = Outcome.ok none :=
  match timer_is_one_shot Example.one_filter_pending 0 _ 1 none 100 1000 none
      [TimerCall.call_ready, TimerCall.call_timeout, TimerCall.call_ready] rfl rfl with
  | ⟨t, h', hr, _, _, hfirst, _⟩ =>
    have k := hfirst _ _ rfl
    have e : h' = Example.runtime_filter := by
      have s : sub_filters Example.one_filter_pending 0 = Outcome.ok Example.runtime_filter :=
        rfl
      have k4 := k.2.2.2
      rw [s] at k4
      cases k4
      rfl
    ⟨rfl, t, h', hr, k.2.2.1, k.2.1, e, by rw [e]; rfl⟩

/-- C18: `set_eos()` terminates on every heap, however the `source_dep` links are wired
(cycles and self-reference included).  The recursion budget the model gives the call is never
exhausted; any budget above the number of dependencies not yet at end of stream gives the
same outcome; and a returning call invokes `set_ready()` at most once on each dependency and
never on one that was already at end of stream: every dependency is processed at most once. -/
theorem set_eos_terminates (h : Heap) (p : Nat) :
    set_eos h p ≠ Outcome.fault Fault.out_of_fuel ∧
    (∀ fuel, h.pending < fuel → set_eos_fuel fuel h p = set_eos h p) ∧
    (∀ h', set_eos h p = Outcome.ok h' →
      ∀ q, h'.set_ready_calls.count q ≤ h.set_ready_calls.count q + 1 ∧
        (∀ d, h.deps[q]? = some d → d._eos = true →
          h'.set_ready_calls.count q = h.set_ready_calls.count q)) := by
  have hpend : h.pending ≤ h.deps.length := List.countP_le_length _
  refine ⟨set_eos_never_exhausts h p, ?_, ?_⟩
  · intro fuel hlt
    unfold set_eos
    by_cases hle : fuel ≤ h.deps.length + 1
    · exact (set_eos_fuel_stable_le hle h p hlt).symm
    · exact set_eos_fuel_stable_le (by omega) h p (by omega)
  · intro h' hr q
    exact set_eos_fuel_calls_once _ hr q

/-- C18 on a cycle of two write dependencies and on a write dependency that is its own
source: the call returns, with both dependencies of the cycle marked once each. -/
theorem set_eos_terminates_witness :
    set_eos Example.cycle 0 = Outcome.ok Example.cycle_done ∧
    set_eos Example.self_loop 0 = Outcome.ok Example.self_loop_done ∧
    set_eos_fuel 3 Example.cycle 0 = set_eos Example.cycle 0 ∧
    set_eos_fuel 1000 Example.cycle 0 = set_eos Example.cycle 0 ∧
    Example.cycle_done.set_ready_calls.count 0 ≤ Example.cycle.set_ready_calls.count 0 + 1 ∧
    Example.self_loop_done.set_ready_calls.count 0 ≤
      Example.self_loop.set_ready_calls.count 0 + 1 :=
  have k := set_eos_terminates Example.cycle 0
  have k2 := set_eos_terminates Example.self_loop 0
  ⟨rfl, rfl, k.2.1 3 (by decide), k.2.1 1000 (by decide),
    (k.2.2 Example.cycle_done rfl 0).1, (k2.2.2 Example.self_loop_done rfl 0).1⟩

/-- C19: `set_eos()` forwards end of stream only from write dependencies.  For a dependency
`D` that is not a write dependency and whose shared state names a source `S` different from
`D`, `D.set_eos()` returns; afterwards `D` has `_eos` and `_ready` true and is otherwise the
same object, and `S`, every other dependency and the shared states are unchanged.  (`D` is
taken in a state where `_eos` implies `_ready`, as in every state reached from newly built
dependencies.) -/
theorem set_eos_stays_local (h : Heap) (D S ss : Nat) (d : Dependency)
    (st : BasicSharedState)
    (hD : h.deps[D]? = some d) (hw : d._is_write_dependency = false)
    (_hss : d._shared_state = some ss) (_hst : h.shared_states[ss]? = some st)
    (_hsrc : st.source_dep = some S) (hne : S ≠ D)
    (hinv : d._eos = true → d._ready = true) :
    ∃ h', set_eos h D = Outcome.ok h' ∧
      h'.deps[D]? = some { d with _ready := true, _eos := true } ∧
      h'.deps[S]? = h.deps[S]? ∧
      (∀ q, q ≠ D → h'.deps[q]? = h.deps[q]?) ∧
      h'.shared_states = h.shared_states := by
  have hlt : D < h.deps.length := (List.getElem?_eq_some.mp hD).1
  by_cases he : d._eos = true
  · refine ⟨h, ?_, ?_, rfl, fun _ _ => rfl, rfl⟩
    · unfold set_eos
      rw [set_eos_fuel_succ _ hD, if_pos he]
    · rw [hD]
      have hr := hinv he
      cases d
      simp only at he hr
      subst he hr
      rfl
  · refine ⟨h.eos_marked D d, ?_, ?_, ?_, ?_, rfl⟩
    · unfold set_eos
      rw [set_eos_fuel_succ _ hD, if_neg he, hw]
      rfl
    · exact List.getElem?_set_self hlt
    · exact List.getElem?_set_ne (Ne.symm hne)
    · intro q hq
      exact List.getElem?_set_ne (Ne.symm hq)

/-- C19 on an example: `set_eos()` on a dependency that is not a write dependency marks that
dependency only; the dependency its shared state names as source stays blocked and is not at
end of stream. -/
theorem set_eos_stays_local_witness :
    ∃ h', set_eos Example.reader 0 = Outcome.ok h' ∧
      eos h' 0 = Outcome.ok true ∧
      h'.deps[1]? = Example.reader.deps[1]? ∧
      eos h' 1 = Outcome.ok false ∧
      is_blocked_by h' 1 none = Outcome.ok (some 1) :=
  match set_eos_stays_local Example.reader 0 1 0 _ _ rfl rfl rfl rfl rfl (by decide)
      (fun e => Bool.noConfusion e) with
  | ⟨h', hr, _, hS, _, _⟩ =>
    have e : h' = Example.reader_done := by
      have r : set_eos Example.reader 0 = Outcome.ok Example.reader_done := rfl
      rw [r] at hr
      cases hr
      rfl
    ⟨h', hr, by rw [e]; rfl, hS, by rw [e]; rfl, by rw [e]; rfl⟩

/-- C20: slow-dependency logging is throttled.  The thresholds are 60 s and 30 s in
nanoseconds.  For every non-decreasing sequence of elapsed times (values of `uint64_t`) passed
to successive `_should_log` calls on a dependency whose last log time is 0: no call with an
elapsed time below `SLOW_DEPENDENCY_THRESHOLD` answers true, the first call with an elapsed
time at or above it answers true, and any two calls that answer true have elapsed times at
least `TIME_UNIT_DEPENDENCY_LOG` apart. -/
theorem should_log_is_throttled (d : Dependency) (ts : List Nat)
    (hlast : d._last_log_time = 0)
    (hsorted : ts.Pairwise (· ≤ ·))
    (hrange : ∀ t ∈ ts, t < 18446744073709551616) :
    SLOW_DEPENDENCY_THRESHOLD = 60 * 1000000000 ∧
    TIME_UNIT_DEPENDENCY_LOG = 30 * 1000000000 ∧
    (d._should_log_times ts).1.length = ts.length ∧
    (∀ (i t : Nat), ts[i]? = some t → t < SLOW_DEPENDENCY_THRESHOLD →
      (d._should_log_times ts).1[i]? = some false) ∧
    (∀ (i t : Nat), ts[i]? = some t → SLOW_DEPENDENCY_THRESHOLD ≤ t →
      (∀ (j t' : Nat), j < i → ts[j]? = some t' → t' < SLOW_DEPENDENCY_THRESHOLD) →
      (d._should_log_times ts).1[i]? = some true) ∧
    (∀ (i j ti tj : Nat), i < j → ts[i]? = some ti → ts[j]? = some tj →
      (d._should_log_times ts).1[i]? = some true →
      (d._should_log_times ts).1[j]? = some true →
      ti + TIME_UNIT_DEPENDENCY_LOG ≤ tj) := by
  refine ⟨by decide, by decide, should_log_times_length ts d,
    fun i t hi ht => should_log_times_below ts d i t hi ht, ?_, ?_⟩
  · intro i t hi ht hbefore
    have hd : d._last_log_time + TIME_UNIT_DEPENDENCY_LOG ≤ SLOW_DEPENDENCY_THRESHOLD := by
      rw [hlast, slow_threshold_value, log_unit_value]
      decide
    exact should_log_times_first ts d i t hd hi ht
      (hrange t (List.mem_iff_getElem?.mpr ⟨i, hi⟩)) hbefore
  · have hr : ∀ t ∈ ts, d._last_log_time ≤ t ∧ t < 18446744073709551616 := by
      intro t ht
      rw [hlast]
      exact ⟨Nat.zero_le t, hrange t ht⟩
    exact (should_log_times_apart ts d hsorted hr).2

/-- C20 on a newly built dependency and the elapsed times 10 s, 60 s, 70 s, 95 s, 95 s, 130 s:
the calls answer false, true, false, true, false, true. -/
theorem should_log_is_throttled_witness :
    ((Dependency.create 0 0 "plain")._should_log_times
      [10000000000, 60000000000, 70000000000, 95000000000, 95000000000, 130000000000]).1
      = [false, true, false, true, false, true] ∧
    60000000000 + TIME_UNIT_DEPENDENCY_LOG ≤ 95000000000 ∧
    95000000000 + TIME_UNIT_DEPENDENCY_LOG ≤ 130000000000 :=
  have k := should_log_is_throttled (Dependency.create 0 0 "plain")
    [10000000000, 60000000000, 70000000000, 95000000000, 95000000000, 130000000000]
    rfl (by decide) (by decide)
  ⟨by decide, k.2.2.2.2.2 1 3 _ _ (by decide) rfl rfl (by decide) (by decide),
    k.2.2.2.2.2 3 5 _ _ (by decide) rfl rfl (by decide) (by decide)⟩

/-- C21: `SetSharedState::hash_table_init` chooses the variant from the first child's key.
When the first child has exactly one key expression and `build_not_ignore_null[0]` is false
(the variant being allocated), the call returns with only `hash_table_variants` changed, and
the alternative emplaced is the 8-bit context for BOOLEAN/TINYINT, 16-bit for SMALLINT, 32-bit
for INT/FLOAT/DATEV2/DECIMAL32, 64-bit for BIGINT/DOUBLE/DATETIME/DATE/DECIMAL64/DATETIMEV2,
128-bit for LARGEINT/DECIMALV2/DECIMAL128I and the serialized context for every other type.
In every case, whatever `try_get_hash_map_context_fixed` does, the outcome and the variant
chosen are the same for any two lists of children that agree on the first child. -/
theorem hash_table_init_dispatch
    (try_fixed : HashTableVariants → List VExprContext → Bool × HashTableVariants)
    (s : SetSharedState) (key : VExprContext) (rest : List (List VExprContext))
    (bs : List Bool) (v0 : HashTableVariants)
    (hchild : s.child_exprs_lists = [key] :: rest)
    (hnull : s.build_not_ignore_null = false :: bs)
    (hvar : s.hash_table_variants = some v0) :
    (∃ v, s.hash_table_init try_fixed = Outcome.ok (s.emplace v) ∧
      ((key.result_type = PrimitiveType.TYPE_BOOLEAN ∨
          key.result_type = PrimitiveType.TYPE_TINYINT) →
        v = HashTableVariants.I8HashTableContext) ∧
      (key.result_type = PrimitiveType.TYPE_SMALLINT →
        v = HashTableVariants.I16HashTableContext) ∧
      ((key.result_type = PrimitiveType.TYPE_INT ∨
          key.result_type = PrimitiveType.TYPE_FLOAT ∨
          key.result_type = PrimitiveType.TYPE_DATEV2 ∨
          key.result_type = PrimitiveType.TYPE_DECIMAL32) →
        v = HashTableVariants.I32HashTableContext) ∧
      ((key.result_type = PrimitiveType.TYPE_BIGINT ∨
          key.result_type = PrimitiveType.TYPE_DOUBLE ∨
          key.result_type = PrimitiveType.TYPE_DATETIME ∨
          key.result_type = PrimitiveType.TYPE_DATE ∨
          key.result_type = PrimitiveType.TYPE_DECIMAL64 ∨
          key.result_type = PrimitiveType.TYPE_DATETIMEV2) →
        v = HashTableVariants.I64HashTableContext) ∧
      ((key.result_type = PrimitiveType.TYPE_LARGEINT ∨
          key.result_type = PrimitiveType.TYPE_DECIMALV2 ∨
          key.result_type = PrimitiveType.TYPE_DECIMAL128I) →
        v = HashTableVariants.I128HashTableContext) ∧
      (∀ code, key.result_type = PrimitiveType.other code →
        v = HashTableVariants.SerializedHashTableContext)) ∧
    (∀ (s0 : SetSharedState) (first : List VExprContext)
        (rest1 rest2 : List (List VExprContext)),
      ((s0.with_children (first :: rest1)).hash_table_init try_fixed).map
          SetSharedState.hash_table_variants =
        ((s0.with_children (first :: rest2)).hash_table_init try_fixed).map
          SetSharedState.hash_table_variants) := by
  refine ⟨⟨SetSharedState.single_column_variant key.result_type,
    SetSharedState.hash_table_init_single try_fixed hchild hnull hvar, ?_, ?_, ?_, ?_, ?_, ?_⟩,
    fun s0 first rest1 rest2 =>
      SetSharedState.hash_table_init_children try_fixed s0 first rest1 rest2⟩
  · rintro (h | h) <;> rw [h] <;> rfl
  · intro h; rw [h]; rfl
  · rintro (h | h | h | h) <;> rw [h] <;> rfl
  · rintro (h | h | h | h | h | h) <;> rw [h] <;> rfl
  · rintro (h | h | h) <;> rw [h] <;> rfl
  · intro code h; rw [h]; rfl

/-- C21 on an example with two children: the single `TYPE_INT` key of the first child gives
the 32-bit context, whatever the second child's expressions are. -/
theorem hash_table_init_dispatch_witness :
    Example.set_state.hash_table_init Example.no_fixed_context =
      Outcome.ok (Example.set_state.emplace HashTableVariants.I32HashTableContext) ∧
    ((Example.set_state.with_children
        [ [ { result_type := PrimitiveType.TYPE_INT, expr := 0 } ] ]).hash_table_init
      Example.no_fixed_context).map SetSharedState.hash_table_variants =
      Outcome.ok (some HashTableVariants.I32HashTableContext) :=
  have k := hash_table_init_dispatch Example.no_fixed_context Example.set_state
    { result_type := PrimitiveType.TYPE_INT, expr := 0 } _ _ _ rfl rfl rfl
  match k with
  | ⟨⟨v, hr, _, _, h32, _, _, _⟩, hindep⟩ =>
    have e : v = HashTableVariants.I32HashTableContext := h32 (Or.inl rfl)
    ⟨by rw [hr, e],
      (hindep Example.set_state [ { result_type := PrimitiveType.TYPE_INT, expr := 0 } ]
        [] [ [ { result_type := PrimitiveType.TYPE_BIGINT, expr := 1 },
               { result_type := PrimitiveType.TYPE_DATE, expr := 2 } ] ]).trans rfl⟩

end doris.pipeline
